import Mathlib

/-!
Shallow embedding of `src/symbolic_pymc/tensorflow/printing.py`.

The module renders a textual trace of a TensorFlow computation graph.  Its
state is a `TFlowPrinter` (output buffer, current indentation string, set of
already-printed subgraphs) and its algorithm is `_tf_dprint`, a
`singledispatch` visitor registered for tensors (`tf.Tensor` /
`TFlowMetaTensor`), operations (`tf.Operation` / `TFlowMetaOp`), with a
default case that prints `str(obj)` on one line.

Modelling conventions:
  * The output sink (`buffer.write` + flush) is modelled as a list of the
    written lines (`out`); each `println` appends one element, the formatted
    line without its terminating newline character.
  * Python object identity is modelled by a `nid : Nat` field on tensors;
    the dedup set `printed_subgraphs` stores these ids.  (The concrete
    `tf.Tensor` hashes by object identity; the meta-tensor class is not part
    of the sources under verification, so its membership semantics are
    modelled from the spec, which specifies identity keying.)
  * `unification.isvar` fields are modelled by two-constructor wrappers
    (`resolved`/`var`), the `var` constructor carrying the string that
    Python's f-string formatting of the logic variable would produce.
  * Machine-level accessors of the excluded collaborators (numpy's
    `array2string`, `repr` of TF objects, the session-`eval` path for
    constants) are modelled from the spec, as noted at each definition.
-/

namespace SymbolicPymc

/-- A dtype: `getattr(obj.dtype, "name", obj.dtype)` falls back to the raw
dtype value when the dtype has no `name` attribute; `raw` is the string the
f-string would render for that raw value. -/
structure DTypeT where
  name : Option String
  raw  : String
deriving DecidableEq

/-- The `node_def` field of an operation: either an unresolved logic variable
(carrying its f-string rendering) or resolved, in which case its
`attr["value"]` numeric payload is modelled as a flat list of integers. -/
inductive MVNodeDef where
  | resolved : List Int → MVNodeDef
  | var : String → MVNodeDef
deriving DecidableEq

mutual
/-- A tensor-like value node (`tf.Tensor` or `TFlowMetaTensor`).

`nid` models Python object identity (two structurally identical tensors at
different graph positions have distinct `nid`s).  `shape` is the result of
`obj.shape.as_list()`: `none` models the accessor raising
`ValueError`/`AttributeError`, `some l` a list of dimensions each possibly
`None`.  `isTF` is `isinstance(obj, tf.Tensor)`; `evalVal` models the value
the live-evaluation accessor `obj.eval(session=...)` would return for a
concrete constant tensor (external session machinery, modelled from the
spec's "live-evaluation accessor"). -/
inductive TFTensor where
  | mk (nid : Nat) (op : MVOp) (value_index : Nat) (dtype : DTypeT)
       (shape : Option (List (Option Nat))) (name : String)
       (isTF : Bool) (evalVal : List Int) : TFTensor

/-- The `op` field of a tensor: its producing operation, possibly an
unresolved logic variable. -/
inductive MVOp where
  | resolved : TFOp → MVOp
  | var : String → MVOp

/-- An operation-like node (`tf.Operation` or `TFlowMetaOp`): a type tag,
an input list (possibly unresolved as a whole) and a `node_def`. -/
inductive TFOp where
  | mk (type : String) (inputs : MVInputs) (node_def : MVNodeDef) : TFOp

/-- The `inputs` field of an operation: its ordered input tensors, possibly
an unresolved logic variable as a whole. -/
inductive MVInputs where
  | resolved : List TFTensor → MVInputs
  | var : String → MVInputs
end

def TFTensor.nid : TFTensor → Nat
  | .mk n _ _ _ _ _ _ _ => n

def TFTensor.op : TFTensor → MVOp
  | .mk _ o _ _ _ _ _ _ => o

def TFTensor.value_index : TFTensor → Nat
  | .mk _ _ v _ _ _ _ _ => v

def TFTensor.dtype : TFTensor → DTypeT
  | .mk _ _ _ d _ _ _ _ => d

def TFTensor.shape : TFTensor → Option (List (Option Nat))
  | .mk _ _ _ _ s _ _ _ => s

def TFTensor.name : TFTensor → String
  | .mk _ _ _ _ _ n _ _ => n

def TFTensor.isTF : TFTensor → Bool
  | .mk _ _ _ _ _ _ b _ => b

def TFTensor.evalVal : TFTensor → List Int
  | .mk _ _ _ _ _ _ _ v => v

def TFOp.type : TFOp → String
  | .mk t _ _ => t

def TFOp.inputs : TFOp → MVInputs
  | .mk _ i _ => i

def TFOp.node_def : TFOp → MVNodeDef
  | .mk _ _ n => n

/-- Modelled from the spec: `str`/`repr` of a concrete tensor object, used
only when a tensor is fed to the opaque default print case (e.g. inside a
list).  The exact text is an external-library detail; what matters is that
it is a single opaque string, not a traversal. -/
def TFTensor.pyrepr (t : TFTensor) : String :=
  "<tf.Tensor " ++ t.name ++ ">"

/-- Modelled from the spec: `str`/`repr` of a concrete operation object. -/
def TFOp.pyrepr (o : TFOp) : String :=
  "<tf.Operation " ++ o.type ++ ">"

/-- The runtime kinds `_tf_dprint` can receive: a plain string (the opaque
default case, also used for every formatted placeholder), a tensor, an
operation, or any other Python object such as a list (which `singledispatch`
sends to the default case, since no list overload is registered). -/
inductive Obj where
  | str : String → Obj
  | tensor : TFTensor → Obj
  | oper : TFOp → Obj
  | list : List Obj → Obj

mutual
/-- `str(obj)` as used by the default printer formatter: identity on
strings, `repr` for node objects, element-wise for lists. -/
def Obj.strOf : Obj → String
  | .str s => s
  | .tensor t => TFTensor.pyrepr t
  | .oper o => TFOp.pyrepr o
  | .list xs => "[" ++ String.intercalate ", " (Obj.strOfList xs) ++ "]"

def Obj.strOfList : List Obj → List String
  | [] => []
  | x :: xs => Obj.strOf x :: Obj.strOfList xs
end

/-- The printer state of class `TFlowPrinter`: an output buffer (list of
written lines), the current indentation string, and the set of
already-printed subgraphs (dedup memory), keyed by tensor identity.
The formatter is fixed to the default `str` (`Obj.strOf`), as built by the
entry point. -/
@[ext]
structure TFlowPrinter where
  out : List String
  indentation : String
  printed_subgraphs : List Nat
deriving DecidableEq

/-- `TFlowPrinter.format`: indentation-prefixed `formatter(obj)`, no
trailing newline. -/
def TFlowPrinter.format (p : TFlowPrinter) (obj : Obj) : String :=
  p.indentation ++ obj.strOf

/-- `TFlowPrinter.println`: write `format(obj)` plus a newline to the buffer
and flush; modelled as appending one line to `out`. -/
def TFlowPrinter.println (p : TFlowPrinter) (obj : Obj) : TFlowPrinter :=
  { p with out := p.out ++ [p.format obj] }

/-- The argument of `TFlowPrinter.indented`: either an integer count of
spaces or a literal string increment. -/
inductive Indent where
  | int : Nat → Indent
  | str : String → Indent

/-- The text an increment contributes to the indentation: `n` spaces for an
integer `n`, the string itself otherwise. -/
def Indent.text : Indent → String
  | .int n => String.join (List.replicate n " ")
  | .str s => s

/-- The `indented` context manager: extend the indentation by the increment
for the duration of the block, and restore the exact prior indentation on
exit.  The block returns its final printer state together with an optional
error (`some e` models the block raising: the `try/finally` still restores
the indentation and the exception propagates). -/
def TFlowPrinter.indented {ε : Type} (p : TFlowPrinter) (ind : Indent)
    (block : TFlowPrinter → TFlowPrinter × Option ε) : TFlowPrinter × Option ε :=
  let pre := p.indentation
  let r := block { p with indentation := p.indentation ++ ind.text }
  ({ r.1 with indentation := pre }, r.2)

/-- `indented` specialised to blocks that do not raise, as used by the
dispatcher (whose blocks, in this embedding, are total). -/
def TFlowPrinter.indentedRun (p : TFlowPrinter) (ind : Indent)
    (block : TFlowPrinter → TFlowPrinter) : TFlowPrinter :=
  (p.indented ind (fun q => (block q, (none : Option Unit)))).1

/-- `str` of a Python `int`-or-`None` shape dimension. -/
def pyOptNatStr : Option Nat → String
  | some n => toString n
  | none => "None"

/-- `str(obj.shape.as_list())`: Python list syntax. -/
def pyListStr (l : List (Option Nat)) : String :=
  "[" ++ String.intercalate ", " (l.map pyOptNatStr) ++ "]"

/-- The header line the tensor case of `_tf_dprint` builds:
`Tensor({getattr(obj.op, "type", obj.op)}):{obj.value_index},\tdtype={getattr(obj.dtype, "name", obj.dtype)},\tshape={shape_str},\t"{obj.name}"`
with `shape_str = "Unknown"` when the shape accessor raises. -/
def headerStr (t : TFTensor) : String :=
  let shape_str := match t.shape with
    | some l => pyListStr l
    | none => "Unknown"
  "Tensor(" ++ (match t.op with | .resolved o => o.type | .var v => v) ++ "):"
    ++ toString t.value_index
    ++ ",\tdtype=" ++ (match t.dtype.name with | some n => n | none => t.dtype.raw)
    ++ ",\tshape=" ++ shape_str
    ++ ",\t\"" ++ t.name ++ "\""

/-- The fully-rendered array string (no truncation). -/
def fullArrayStr (a : List Int) : String :=
  "[" ++ String.intercalate " " (a.map toString) ++ "]"

/-- The collapsed/truncated array rendering: leading and trailing edge items
around a `...` ellipsis. -/
def collapsedArrayStr (a : List Int) : String :=
  "[" ++ String.intercalate " " ((a.take 3).map toString) ++ " ... "
      ++ String.intercalate " " ((a.drop (a.length - 3)).map toString) ++ "]"

/-- Modelled from the spec: the external array-to-string formatter
(`np.array2string`), which renders a numeric payload as a string, collapsing
to a truncated form beyond the element threshold, and takes an indentation
prefix for continuation-line alignment (the prefix only affects line
wrapping, which a single-line model does not exhibit). -/
def array2string (a : List Int) (threshold : Nat) (prefx : String) : String :=
  if a.length > threshold then collapsedArrayStr a else fullArrayStr a

mutual
/-- The tensor case of `_tf_dprint` (registered for `tf.Tensor` and
`TFlowMetaTensor`): print the header line, then
  * if the op is an unresolved variable, stop;
  * else if the op's input list is unresolved, print its rendering indented;
  * else if there is at least one input, dedup on tensor identity: first
    visit adds the tensor and recurses into the op, later visits print
    `"..."`;
  * else if the op type is `"Const"`, render the payload (session-eval for a
    concrete tensor, else the `node_def` — whose own unresolved case prints
    its rendering) via `array2string` with threshold 20 and the current
    indentation as prefix. -/
def dprintT : TFTensor → TFlowPrinter → TFlowPrinter
  | t@(.mk nid op _ _ _ _ isTF evalVal), p =>
    let p1 := p.println (.str (headerStr t))
    match op with
    | .var _ => p1
    | .resolved o =>
      match o with
      | .mk ty inputs nd =>
        match inputs with
        | .var v => p1.indentedRun (.str "|  ") (fun q => q.println (.str v))
        | .resolved ins =>
          if 0 < ins.length then
            p1.indentedRun (.str "|  ") (fun q =>
              if nid ∈ q.printed_subgraphs then
                q.println (.str "...")
              else
                dprintO o { q with printed_subgraphs := q.printed_subgraphs ++ [nid] })
          else if ty = "Const" then
            p1.indentedRun (.str "|  ") (fun q =>
              if isTF then
                q.println (.str (array2string evalVal 20 q.indentation))
              else
                match nd with
                | .var v => q.println (.str v)
                | .resolved val => q.println (.str (array2string val 20 q.indentation)))
          else p1

/-- The operation case of `_tf_dprint` (registered for `tf.Operation` and
`TFlowMetaOp`): visit each input tensor in list order.  (An unresolved input
list is never iterated by the guarded call sites; the source would raise
there, modelled as a no-op since it is unreachable in the claims.) -/
def dprintO : TFOp → TFlowPrinter → TFlowPrinter
  | .mk _ inputs _, p =>
    match inputs with
    | .var _ => p
    | .resolved ins => dprintIns ins p

/-- Left-to-right visit of an operation's input tensors. -/
def dprintIns : List TFTensor → TFlowPrinter → TFlowPrinter
  | [], p => p
  | t :: ts, p => dprintIns ts (dprintT t p)
end

/-- The `singledispatch` entry of `_tf_dprint`: tensors and operations go to
their registered cases; everything else — strings, and also lists, for which
no overload is registered — goes to the default case `printer.println(obj)`. -/
def tfDprint (obj : Obj) (p : TFlowPrinter) : TFlowPrinter :=
  match obj with
  | .tensor t => dprintT t p
  | .oper o => dprintO o p
  | _ => p.println obj

/-- What `tf_dprint` receives: either a concrete tensor whose `.op` accessor
raises `AttributeError` (an eager/deferred-context tensor, carrying only its
rendering), or an inspectable object. -/
inductive RootObj where
  | eagerTensor (rep : String)
  | node (o : Obj)

/-- The default printer built by `tf_dprint` when the caller passes none:
`TFlowPrinter(str, sys.stdout)` — empty indentation, empty dedup set, and a
sink modelled as an empty output buffer. -/
def defaultPrinter : TFlowPrinter :=
  { out := [], indentation := "", printed_subgraphs := [] }

/-- The entry point `tf_dprint(obj, printer=None)`: if `obj` is a concrete
tensor whose producing-operation accessor is unavailable, raise `ValueError`
(modelled as `some message` in the second component) without touching the
printer; otherwise build the default printer if none is supplied and
dispatch.  The first component is the printer state after the call. -/
def tf_dprint (obj : RootObj) (printer : Option TFlowPrinter) :
    TFlowPrinter × Option String :=
  match obj with
  | .eagerTensor _ =>
      (printer.getD defaultPrinter,
       some ("TensorFlow Operation not available; try recreating the object with eager-mode disabled (e.g. within `tensorflow.python.eager.context.graph_mode`)"))
  | .node o => (tfDprint o (printer.getD defaultPrinter), none)

/-! ### Derived notions used to state the verified properties -/

/-- The numeric payload the `Const` branch retrieves for a constant tensor:
the live-evaluation result for a concrete `tf.Tensor`, else the resolved
`node_def` payload; `none` when the `node_def` is an unresolved variable
(in which case the branch prints the variable's rendering instead). -/
def payloadOf (t : TFTensor) (o : TFOp) : Option (List Int) :=
  if t.isTF then some t.evalVal
  else match o.node_def with
    | .var _ => none
    | .resolved v => some v

/-- `t` with a different object identity: a structurally identical value
node sitting at a different graph position. -/
def TFTensor.withNid : TFTensor → Nat → TFTensor
  | .mk _ o vi dt sh nm b ev, n => .mk n o vi dt sh nm b ev

/-- `t` with a different shape-accessor outcome (`none` models the accessor
raising one of the two caught exception types). -/
def TFTensor.withShape : TFTensor → Option (List (Option Nat)) → TFTensor
  | .mk n o vi dt _ nm b ev, sh => .mk n o vi dt sh nm b ev

/-- The possible outcomes of the shape accessor `obj.shape.as_list()`:
success, one of the two exception types the tensor case catches
(`ValueError`, `AttributeError`), or an exception of any other type
(carrying its rendering), which the `except (ValueError, AttributeError)`
clause does not catch. -/
inductive ShapeOutcome where
  | ok : List (Option Nat) → ShapeOutcome
  | valueError : ShapeOutcome
  | attributeError : ShapeOutcome
  | otherError : String → ShapeOutcome

/-- How an outcome the `except` clause handles is folded into the tensor's
`shape` field: a successful accessor is the list, either caught exception
is `none` (the `"Unknown"` fallback); meaningful only for non-propagating
outcomes. -/
def ShapeOutcome.toField : ShapeOutcome → Option (List (Option Nat))
  | .ok l => some l
  | _ => none

/-- The tensor case of `_tf_dprint` with the shape accessor's outcome made
explicit, mirroring
`try: shape_str = str(obj.shape.as_list()) except (ValueError, AttributeError): shape_str = "Unknown"`:
a `ValueError` or `AttributeError` is caught and the visit proceeds as
`dprintT` on the tensor with the caught outcome folded into its `shape`
field, while an exception of any other type propagates uncaught — the
visit produces no printer state at all (no header line, traversal
aborted). -/
def dprintTShape (t : TFTensor) (sh : ShapeOutcome) (p : TFlowPrinter) :
    Except String TFlowPrinter :=
  match sh with
  | .otherError exc => .error exc
  | _ => .ok (dprintT (t.withShape sh.toField) p)

/-- How a printer state may evolve across a dispatcher call: the
indentation is restored, the output buffer and the dedup set only grow by
appending, an id already in the dedup set is never added again (its
multiplicity is preserved), and freedom from duplicates is preserved. -/
def Evolves (p q : TFlowPrinter) : Prop :=
  q.indentation = p.indentation ∧
  (∃ e, q.out = p.out ++ e) ∧
  (∃ e, q.printed_subgraphs = p.printed_subgraphs ++ e) ∧
  (∀ n, n ∈ p.printed_subgraphs →
      List.count n q.printed_subgraphs = List.count n p.printed_subgraphs) ∧
  (p.printed_subgraphs.Nodup → q.printed_subgraphs.Nodup)

/-- Nested indentation scopes: enter each increment in list order, run the
block innermost. -/
def nestScopes {ε : Type} : List Indent →
    (TFlowPrinter → TFlowPrinter × Option ε) → TFlowPrinter →
    TFlowPrinter × Option ε
  | [], block, p => block p
  | i :: is, block, p => p.indented i (nestScopes is block)

/-- The concatenation of the texts of a list of indent increments. -/
def concatTexts : List Indent → String
  | [] => ""
  | i :: is => i.text ++ concatTexts is

mutual
/-- The identities of the value nodes of a subgraph whose producing
operation is resolved with a resolved, non-empty input list — the only
nodes the dedup branch of the printer can ever add to the dedup set. -/
def expandableIds : TFTensor → List Nat
  | .mk nid op _ _ _ _ _ _ =>
    match op with
    | .var _ => []
    | .resolved (.mk _ inputs _) =>
      match inputs with
      | .var _ => []
      | .resolved ins => if 0 < ins.length then nid :: expandableIdsL ins else []

/-- `expandableIds` over a list of tensors. -/
def expandableIdsL : List TFTensor → List Nat
  | [] => []
  | t :: ts => expandableIds t ++ expandableIdsL ts
end

/-- The expandable identities reachable through an operation node. -/
def expandableIdsO : TFOp → List Nat
  | .mk _ inputs _ =>
    match inputs with
    | .var _ => []
    | .resolved ins => expandableIdsL ins

/-- A downstream consumer node: a fresh value node whose operation consumes
exactly the shared node `s`. -/
def consumerOf (n : Nat) (ty nm : String) (dt : DTypeT) (s : TFTensor) : TFTensor :=
  .mk n (.resolved (.mk ty (.resolved [s]) (.var "~nd"))) 0 dt (some []) nm false []

/-- A diamond root: a value node whose operation consumes the two given
nodes in order. -/
def diamondRoot (n : Nat) (ty nm : String) (dt : DTypeT) (a b : TFTensor) : TFTensor :=
  .mk n (.resolved (.mk ty (.resolved [a, b]) (.var "~nd"))) 0 dt (some []) nm false []

/-! ### Concrete instances used for witnesses and counterexamples -/

/-- A concrete float32 dtype. -/
def dtF : DTypeT := ⟨some "float32", "float32"⟩

/-- A zero-input placeholder-op leaf tensor. -/
def exLeaf : TFTensor :=
  .mk 10 (.resolved (.mk "Placeholder" (.resolved []) (.var "~nd"))) 0 dtF
    (some [some 2]) "x:0" false []

/-- The producing operation of `exShared`. -/
def exSharedOp : TFOp := .mk "Exp" (.resolved [exLeaf]) (.var "~nd")

/-- A one-input tensor, used as a shared upstream node. -/
def exShared : TFTensor :=
  .mk 3 (.resolved exSharedOp) 0 dtF (some [some 2]) "exp:0" false []

/-- A tensor whose producing operation is an unresolved placeholder. -/
def exVarOp : TFTensor :=
  .mk 20 (.var "~1") 0 dtF (some [some 2]) "v:0" false []

/-- The producing operation of `exConstBig`: a zero-input constant whose
`node_def` payload has 21 elements. -/
def exConstBigOp : TFOp :=
  .mk "Const" (.resolved [])
    (.resolved [0, 1, 2, 3, 4, 5, 6, 7, 8, 9, 10, 11, 12, 13, 14, 15, 16, 17, 18, 19, 20])

/-- A zero-input constant tensor with a 21-element payload. -/
def exConstBig : TFTensor :=
  .mk 7 (.resolved exConstBigOp) 0 dtF (some [some 21]) "c:0" false []

/-- A printer whose dedup set already records id 7 (`exConstBig`'s
identity), modelling a repeat occurrence of that constant. -/
def exPrinterSeen : TFlowPrinter := ⟨[], "", [7]⟩

/-! ## Lemmas: one characterization per branch of the tensor case -/

theorem dprintT_var_op (t : TFTensor) (v : String) (p : TFlowPrinter)
    (h : t.op = .var v) :
    dprintT t p = { p with out := p.out ++ [p.indentation ++ headerStr t] } := by
  obtain ⟨nid, op, vi, dt, sh, nm, b, ev⟩ := t
  cases op with
  | var w => simp [dprintT, TFlowPrinter.println, TFlowPrinter.format, Obj.strOf]
  | resolved o => simp [TFTensor.op] at h

theorem dprintT_var_inputs (t : TFTensor) (o : TFOp) (v : String) (p : TFlowPrinter)
    (h1 : t.op = .resolved o) (h2 : o.inputs = .var v) :
    dprintT t p = { p with out := p.out ++
        [p.indentation ++ headerStr t, p.indentation ++ "|  " ++ v] } := by
  obtain ⟨nid, op, vi, dt, sh, nm, b, ev⟩ := t
  cases op with
  | var w => simp [TFTensor.op] at h1
  | resolved o' =>
    simp only [TFTensor.op, MVOp.resolved.injEq] at h1
    subst h1
    obtain ⟨ty, inputs, nd⟩ := o'
    cases inputs with
    | var w =>
      simp only [TFOp.inputs, MVInputs.var.injEq] at h2
      subst h2
      simp [dprintT, TFlowPrinter.println, TFlowPrinter.format, Obj.strOf,
        TFlowPrinter.indentedRun, TFlowPrinter.indented, Indent.text, String.append_assoc]
    | resolved ins => simp [TFOp.inputs] at h2

theorem dprintT_expand (t : TFTensor) (o : TFOp) (ins : List TFTensor) (p : TFlowPrinter)
    (h1 : t.op = .resolved o) (h2 : o.inputs = .resolved ins) (h3 : 0 < ins.length)
    (h4 : t.nid ∉ p.printed_subgraphs) :
    dprintT t p =
      { dprintO o
          { p with out := p.out ++ [p.indentation ++ headerStr t],
                   indentation := p.indentation ++ "|  ",
                   printed_subgraphs := p.printed_subgraphs ++ [t.nid] }
        with indentation := p.indentation } := by
  obtain ⟨nid, op, vi, dt, sh, nm, b, ev⟩ := t
  cases op with
  | var w => simp [TFTensor.op] at h1
  | resolved o' =>
    simp only [TFTensor.op, MVOp.resolved.injEq] at h1
    subst h1
    obtain ⟨ty, inputs, nd⟩ := o'
    cases inputs with
    | var w => simp [TFOp.inputs] at h2
    | resolved ins' =>
      simp only [TFOp.inputs, MVInputs.resolved.injEq] at h2
      subst h2
      simp only [TFTensor.nid] at h4
      simp [dprintT, h3, h4, TFTensor.nid, TFlowPrinter.println, TFlowPrinter.format,
        Obj.strOf, TFlowPrinter.indentedRun, TFlowPrinter.indented, Indent.text]

theorem dprintT_dedup (t : TFTensor) (o : TFOp) (ins : List TFTensor) (p : TFlowPrinter)
    (h1 : t.op = .resolved o) (h2 : o.inputs = .resolved ins) (h3 : 0 < ins.length)
    (h4 : t.nid ∈ p.printed_subgraphs) :
    dprintT t p = { p with out := p.out ++
        [p.indentation ++ headerStr t, p.indentation ++ "|  " ++ "..."] } := by
  obtain ⟨nid, op, vi, dt, sh, nm, b, ev⟩ := t
  cases op with
  | var w => simp [TFTensor.op] at h1
  | resolved o' =>
    simp only [TFTensor.op, MVOp.resolved.injEq] at h1
    subst h1
    obtain ⟨ty, inputs, nd⟩ := o'
    cases inputs with
    | var w => simp [TFOp.inputs] at h2
    | resolved ins' =>
      simp only [TFOp.inputs, MVInputs.resolved.injEq] at h2
      subst h2
      simp only [TFTensor.nid] at h4
      simp [dprintT, h3, h4, TFTensor.nid, TFlowPrinter.println, TFlowPrinter.format,
        Obj.strOf, TFlowPrinter.indentedRun, TFlowPrinter.indented, Indent.text,
        String.append_assoc]

theorem dprintT_const (t : TFTensor) (o : TFOp) (v : List Int) (p : TFlowPrinter)
    (h1 : t.op = .resolved o) (h2 : o.inputs = .resolved []) (h3 : o.type = "Const")
    (h4 : payloadOf t o = some v) :
    dprintT t p = { p with out := p.out ++ [p.indentation ++ headerStr t,
        p.indentation ++ "|  " ++ array2string v 20 (p.indentation ++ "|  ")] } := by
  obtain ⟨nid, op, vi, dt, sh, nm, b, ev⟩ := t
  cases op with
  | var w => simp [TFTensor.op] at h1
  | resolved o' =>
    simp only [TFTensor.op, MVOp.resolved.injEq] at h1
    subst h1
    obtain ⟨ty, inputs, nd⟩ := o'
    cases inputs with
    | var w => simp [TFOp.inputs] at h2
    | resolved ins' =>
      simp only [TFOp.inputs, MVInputs.resolved.injEq] at h2
      subst h2
      simp only [TFOp.type] at h3
      subst h3
      cases b with
      | true =>
        simp only [payloadOf, TFTensor.isTF, if_pos, TFTensor.evalVal,
          Option.some.injEq] at h4
        subst h4
        simp [dprintT, TFlowPrinter.println, TFlowPrinter.format, Obj.strOf,
          TFlowPrinter.indentedRun, TFlowPrinter.indented, Indent.text,
          String.append_assoc]
      | false =>
        cases nd with
        | var w => simp [payloadOf, TFTensor.isTF, TFOp.node_def] at h4
        | resolved val =>
          simp only [payloadOf, TFTensor.isTF, TFOp.node_def, Bool.false_eq_true,
            if_false, Option.some.injEq] at h4
          subst h4
          simp [dprintT, TFlowPrinter.println, TFlowPrinter.format, Obj.strOf,
            TFlowPrinter.indentedRun, TFlowPrinter.indented, Indent.text,
            String.append_assoc]

theorem dprintT_const_varnd (t : TFTensor) (o : TFOp) (w : String) (p : TFlowPrinter)
    (h1 : t.op = .resolved o) (h2 : o.inputs = .resolved []) (h3 : o.type = "Const")
    (h4 : t.isTF = false) (h5 : o.node_def = .var w) :
    dprintT t p = { p with out := p.out ++ [p.indentation ++ headerStr t,
        p.indentation ++ ("|  " ++ w)] } := by
  obtain ⟨nid, op, vi, dt, sh, nm, b, ev⟩ := t
  cases op with
  | var wo => simp [TFTensor.op] at h1
  | resolved o' =>
    simp only [TFTensor.op, MVOp.resolved.injEq] at h1
    subst h1
    obtain ⟨ty, inputs, nd⟩ := o'
    cases inputs with
    | var wi => simp [TFOp.inputs] at h2
    | resolved ins' =>
      simp only [TFOp.inputs, MVInputs.resolved.injEq] at h2
      subst h2
      simp only [TFOp.type] at h3
      subst h3
      simp only [TFTensor.isTF] at h4
      subst h4
      simp only [TFOp.node_def] at h5
      subst h5
      simp [dprintT, TFlowPrinter.println, TFlowPrinter.format, Obj.strOf,
        TFlowPrinter.indentedRun, TFlowPrinter.indented, Indent.text,
        String.append_assoc]

theorem dprintT_plain (t : TFTensor) (o : TFOp) (p : TFlowPrinter)
    (h1 : t.op = .resolved o) (h2 : o.inputs = .resolved []) (h3 : o.type ≠ "Const") :
    dprintT t p = { p with out := p.out ++ [p.indentation ++ headerStr t] } := by
  obtain ⟨nid, op, vi, dt, sh, nm, b, ev⟩ := t
  cases op with
  | var wo => simp [TFTensor.op] at h1
  | resolved o' =>
    simp only [TFTensor.op, MVOp.resolved.injEq] at h1
    subst h1
    obtain ⟨ty, inputs, nd⟩ := o'
    cases inputs with
    | var wi => simp [TFOp.inputs] at h2
    | resolved ins' =>
      simp only [TFOp.inputs, MVInputs.resolved.injEq] at h2
      subst h2
      simp only [TFOp.type] at h3
      simp [dprintT, h3, TFlowPrinter.println, TFlowPrinter.format, Obj.strOf]

theorem dprintO_resolved (ty : String) (ins : List TFTensor) (nd : MVNodeDef)
    (p : TFlowPrinter) : dprintO (.mk ty (.resolved ins) nd) p = dprintIns ins p := by
  simp [dprintO]

theorem dprintO_var (ty : String) (v : String) (nd : MVNodeDef)
    (p : TFlowPrinter) : dprintO (.mk ty (.var v) nd) p = p := by
  simp [dprintO]

theorem dprintIns_nil (p : TFlowPrinter) : dprintIns [] p = p := by simp [dprintIns]

theorem dprintIns_cons (t : TFTensor) (ts : List TFTensor) (p : TFlowPrinter) :
    dprintIns (t :: ts) p = dprintIns ts (dprintT t p) := by simp [dprintIns]

/-! ## Lemmas: state evolution across a dispatcher call -/

theorem evolves_refl (p : TFlowPrinter) : Evolves p p :=
  ⟨rfl, ⟨[], by simp⟩, ⟨[], by simp⟩, fun _ _ => rfl, id⟩

theorem evolves_trans {p q r : TFlowPrinter} (h1 : Evolves p q) (h2 : Evolves q r) :
    Evolves p r := by
  obtain ⟨hi1, ⟨e1, ho1⟩, ⟨f1, hp1⟩, hc1, hn1⟩ := h1
  obtain ⟨hi2, ⟨e2, ho2⟩, ⟨f2, hp2⟩, hc2, hn2⟩ := h2
  refine ⟨hi2.trans hi1, ⟨e1 ++ e2, by simp [ho2, ho1]⟩,
    ⟨f1 ++ f2, by simp [hp2, hp1]⟩, ?_, fun h => hn2 (hn1 h)⟩
  intro n hn
  rw [hc2 n (by simp [hp1, hn]), hc1 n hn]

theorem evolves_of_out (p q : TFlowPrinter) (e : List String)
    (hi : q.indentation = p.indentation) (ho : q.out = p.out ++ e)
    (hp : q.printed_subgraphs = p.printed_subgraphs) : Evolves p q :=
  ⟨hi, ⟨e, ho⟩, ⟨[], by simp [hp]⟩, fun n _ => by rw [hp], fun h => hp ▸ h⟩

theorem evolves_expand_step (p E : TFlowPrinter) (hdr : String) (n : Nat)
    (hmem : n ∉ p.printed_subgraphs)
    (hE : Evolves ⟨p.out ++ [hdr], p.indentation ++ "|  ",
                   p.printed_subgraphs ++ [n]⟩ E) :
    Evolves p { E with indentation := p.indentation } := by
  obtain ⟨hi, ⟨e, ho⟩, ⟨f, hp⟩, hc, hn⟩ := hE
  refine ⟨rfl, ⟨[hdr] ++ e, by simp [ho]⟩, ⟨[n] ++ f, by simp [hp]⟩, ?_, ?_⟩
  · intro m hm
    have hmn : m ≠ n := fun h => hmem (h ▸ hm)
    have hcm := hc m (by simp [hm])
    simp only [List.count_append] at hcm ⊢
    rw [hcm]
    simp [List.count_cons, hmn]
  · intro hnd
    apply hn
    simp [List.nodup_append, hnd, hmem]

/-- Every tensor visit evolves the printer state: indentation restored,
buffer and dedup set append-only, already-present ids never re-added,
no-duplicates preserved. -/
theorem dprintT_evolves : ∀ t p, Evolves p (dprintT t p) := by
  refine dprintT.induct (fun t p => Evolves p (dprintT t p))
    (fun o p => Evolves p (dprintO o p))
    (fun ts p => Evolves p (dprintIns ts p)) ?_ ?_ ?_ ?_ ?_ ?_ ?_ ?_ ?_
  · -- op is a variable
    intro nid vi dt sh nm b ev p a _
    rw [dprintT_var_op (.mk nid (.var a) vi dt sh nm b ev) a p rfl]
    exact evolves_of_out _ _ _ rfl rfl rfl
  · -- inputs are a variable
    intro nid vi dt sh nm b ev p ty nd v _ _ _
    rw [dprintT_var_inputs (.mk nid (.resolved (.mk ty (.var v) nd)) vi dt sh nm b ev)
      (.mk ty (.var v) nd) v p rfl rfl]
    exact evolves_of_out _ _ _ rfl rfl rfl
  · -- at least one input: dedup or expand
    intro nid vi dt sh nm b ev p ty nd ins hlen _ _ _ ih
    by_cases hmem : nid ∈ p.printed_subgraphs
    · rw [dprintT_dedup (.mk nid (.resolved (.mk ty (.resolved ins) nd)) vi dt sh nm b ev)
        (.mk ty (.resolved ins) nd) ins p rfl rfl hlen hmem]
      exact evolves_of_out _ _ _ rfl rfl rfl
    · rw [dprintT_expand (.mk nid (.resolved (.mk ty (.resolved ins) nd)) vi dt sh nm b ev)
        (.mk ty (.resolved ins) nd) ins p rfl rfl hlen hmem]
      refine evolves_expand_step p _ (p.indentation ++
        headerStr (.mk nid (.resolved (.mk ty (.resolved ins) nd)) vi dt sh nm b ev)) nid hmem ?_
      exact ih ⟨p.out ++ [p.indentation ++
        headerStr (.mk nid (.resolved (.mk ty (.resolved ins) nd)) vi dt sh nm b ev)],
        p.indentation ++ "|  ", p.printed_subgraphs⟩
  · -- Const
    intro nid vi dt sh nm b ev p nd ins hlen _ _ _
    have hins : ins = [] := List.length_eq_zero.mp (by omega)
    subst hins
    cases b with
    | true =>
      rw [dprintT_const (.mk nid (.resolved (.mk "Const" (.resolved []) nd)) vi dt sh nm true ev)
        (.mk "Const" (.resolved []) nd) ev p rfl rfl rfl
        (by simp [payloadOf, TFTensor.isTF, TFTensor.evalVal])]
      exact evolves_of_out _ _ _ rfl rfl rfl
    | false =>
      cases nd with
      | var w =>
        rw [dprintT_const_varnd
          (.mk nid (.resolved (.mk "Const" (.resolved []) (.var w))) vi dt sh nm false ev)
          (.mk "Const" (.resolved []) (.var w)) w p rfl rfl rfl rfl rfl]
        exact evolves_of_out _ _ _ rfl rfl rfl
      | resolved val =>
        rw [dprintT_const
          (.mk nid (.resolved (.mk "Const" (.resolved []) (.resolved val))) vi dt sh nm false ev)
          (.mk "Const" (.resolved []) (.resolved val)) val p rfl rfl rfl
          (by simp [payloadOf, TFTensor.isTF, TFOp.node_def])]
        exact evolves_of_out _ _ _ rfl rfl rfl
  · -- zero inputs, not Const
    intro nid vi dt sh nm b ev p ty nd ins hlen hty _ _ _
    have hins : ins = [] := List.length_eq_zero.mp (by omega)
    subst hins
    rw [dprintT_plain (.mk nid (.resolved (.mk ty (.resolved []) nd)) vi dt sh nm b ev)
      (.mk ty (.resolved []) nd) p rfl rfl hty]
    exact evolves_of_out _ _ _ rfl rfl rfl
  · -- op with variable inputs
    intro ty nd p a
    rw [dprintO_var ty a nd p]
    exact evolves_refl p
  · -- op with resolved inputs
    intro ty nd p ins ih
    rw [dprintO_resolved ty ins nd p]
    exact ih
  · -- empty input list
    intro p
    rw [dprintIns_nil]
    exact evolves_refl p
  · -- cons input list
    intro t ts p ih1 ih2
    rw [dprintIns_cons]
    exact evolves_trans ih1 ih2

theorem dprintIns_evolves : ∀ ts p, Evolves p (dprintIns ts p) := by
  intro ts
  induction ts with
  | nil => intro p; rw [dprintIns_nil]; exact evolves_refl p
  | cons t ts ih =>
    intro p
    rw [dprintIns_cons]
    exact evolves_trans (dprintT_evolves t p) (ih (dprintT t p))

theorem dprintO_evolves : ∀ o p, Evolves p (dprintO o p) := by
  intro o p
  obtain ⟨ty, inputs, nd⟩ := o
  cases inputs with
  | var v => rw [dprintO_var]; exact evolves_refl p
  | resolved ins => rw [dprintO_resolved]; exact dprintIns_evolves ins p

/-- The lines a visit appends, and its effect on indentation and the dedup
set, do not depend on the lines already in the buffer. -/
theorem dprintT_shift : ∀ t q, ∀ o' : List String, ∃ ext,
    (dprintT t q).out = q.out ++ ext ∧
    (dprintT t ⟨o', q.indentation, q.printed_subgraphs⟩).out = o' ++ ext ∧
    (dprintT t ⟨o', q.indentation, q.printed_subgraphs⟩).indentation
      = (dprintT t q).indentation ∧
    (dprintT t ⟨o', q.indentation, q.printed_subgraphs⟩).printed_subgraphs
      = (dprintT t q).printed_subgraphs := by
  refine dprintT.induct
    (fun t q => ∀ o' : List String, ∃ ext,
      (dprintT t q).out = q.out ++ ext ∧
      (dprintT t ⟨o', q.indentation, q.printed_subgraphs⟩).out = o' ++ ext ∧
      (dprintT t ⟨o', q.indentation, q.printed_subgraphs⟩).indentation
        = (dprintT t q).indentation ∧
      (dprintT t ⟨o', q.indentation, q.printed_subgraphs⟩).printed_subgraphs
        = (dprintT t q).printed_subgraphs)
    (fun o q => ∀ o' : List String, ∃ ext,
      (dprintO o q).out = q.out ++ ext ∧
      (dprintO o ⟨o', q.indentation, q.printed_subgraphs⟩).out = o' ++ ext ∧
      (dprintO o ⟨o', q.indentation, q.printed_subgraphs⟩).indentation
        = (dprintO o q).indentation ∧
      (dprintO o ⟨o', q.indentation, q.printed_subgraphs⟩).printed_subgraphs
        = (dprintO o q).printed_subgraphs)
    (fun ts q => ∀ o' : List String, ∃ ext,
      (dprintIns ts q).out = q.out ++ ext ∧
      (dprintIns ts ⟨o', q.indentation, q.printed_subgraphs⟩).out = o' ++ ext ∧
      (dprintIns ts ⟨o', q.indentation, q.printed_subgraphs⟩).indentation
        = (dprintIns ts q).indentation ∧
      (dprintIns ts ⟨o', q.indentation, q.printed_subgraphs⟩).printed_subgraphs
        = (dprintIns ts q).printed_subgraphs) ?_ ?_ ?_ ?_ ?_ ?_ ?_ ?_ ?_
  · intro nid vi dt sh nm b ev q a _ o'
    rw [dprintT_var_op (.mk nid (.var a) vi dt sh nm b ev) a q rfl,
      dprintT_var_op (.mk nid (.var a) vi dt sh nm b ev) a
        ⟨o', q.indentation, q.printed_subgraphs⟩ rfl]
    exact ⟨_, rfl, by simp, by simp, by simp⟩
  · intro nid vi dt sh nm b ev q ty nd v _ _ _ o'
    rw [dprintT_var_inputs (.mk nid (.resolved (.mk ty (.var v) nd)) vi dt sh nm b ev)
        (.mk ty (.var v) nd) v q rfl rfl,
      dprintT_var_inputs (.mk nid (.resolved (.mk ty (.var v) nd)) vi dt sh nm b ev)
        (.mk ty (.var v) nd) v ⟨o', q.indentation, q.printed_subgraphs⟩ rfl rfl]
    exact ⟨_, rfl, by simp, by simp, by simp⟩
  · intro nid vi dt sh nm b ev q ty nd ins hlen _ _ _ ih o'
    by_cases hmem : nid ∈ q.printed_subgraphs
    · rw [dprintT_dedup (.mk nid (.resolved (.mk ty (.resolved ins) nd)) vi dt sh nm b ev)
          (.mk ty (.resolved ins) nd) ins q rfl rfl hlen hmem,
        dprintT_dedup (.mk nid (.resolved (.mk ty (.resolved ins) nd)) vi dt sh nm b ev)
          (.mk ty (.resolved ins) nd) ins ⟨o', q.indentation, q.printed_subgraphs⟩
          rfl rfl hlen hmem]
      exact ⟨_, rfl, by simp, by simp, by simp⟩
    · rw [dprintT_expand (.mk nid (.resolved (.mk ty (.resolved ins) nd)) vi dt sh nm b ev)
          (.mk ty (.resolved ins) nd) ins q rfl rfl hlen hmem,
        dprintT_expand (.mk nid (.resolved (.mk ty (.resolved ins) nd)) vi dt sh nm b ev)
          (.mk ty (.resolved ins) nd) ins ⟨o', q.indentation, q.printed_subgraphs⟩
          rfl rfl hlen hmem]
      obtain ⟨e2, k1, k2, k3, k4⟩ := ih ⟨q.out ++ [q.indentation ++
          headerStr (.mk nid (.resolved (.mk ty (.resolved ins) nd)) vi dt sh nm b ev)],
          q.indentation ++ "|  ", q.printed_subgraphs⟩
        (o' ++ [q.indentation ++
          headerStr (.mk nid (.resolved (.mk ty (.resolved ins) nd)) vi dt sh nm b ev)])
      refine ⟨[q.indentation ++
          headerStr (.mk nid (.resolved (.mk ty (.resolved ins) nd)) vi dt sh nm b ev)] ++ e2,
        ?_, ?_, ?_, ?_⟩
      · simpa using k1
      · simpa using k2
      · simpa using k3
      · simp only at k4
        exact k4
  · intro nid vi dt sh nm b ev q nd ins hlen _ _ _ o'
    have hins : ins = [] := List.length_eq_zero.mp (by omega)
    subst hins
    cases b with
    | true =>
      rw [dprintT_const (.mk nid (.resolved (.mk "Const" (.resolved []) nd)) vi dt sh nm true ev)
          (.mk "Const" (.resolved []) nd) ev q rfl rfl rfl
          (by simp [payloadOf, TFTensor.isTF, TFTensor.evalVal]),
        dprintT_const (.mk nid (.resolved (.mk "Const" (.resolved []) nd)) vi dt sh nm true ev)
          (.mk "Const" (.resolved []) nd) ev ⟨o', q.indentation, q.printed_subgraphs⟩ rfl rfl rfl
          (by simp [payloadOf, TFTensor.isTF, TFTensor.evalVal])]
      exact ⟨_, rfl, by simp, by simp, by simp⟩
    | false =>
      cases nd with
      | var w =>
        rw [dprintT_const_varnd
            (.mk nid (.resolved (.mk "Const" (.resolved []) (.var w))) vi dt sh nm false ev)
            (.mk "Const" (.resolved []) (.var w)) w q rfl rfl rfl rfl rfl,
          dprintT_const_varnd
            (.mk nid (.resolved (.mk "Const" (.resolved []) (.var w))) vi dt sh nm false ev)
            (.mk "Const" (.resolved []) (.var w)) w ⟨o', q.indentation, q.printed_subgraphs⟩
            rfl rfl rfl rfl rfl]
        exact ⟨_, rfl, by simp, by simp, by simp⟩
      | resolved val =>
        rw [dprintT_const
            (.mk nid (.resolved (.mk "Const" (.resolved []) (.resolved val))) vi dt sh nm false ev)
            (.mk "Const" (.resolved []) (.resolved val)) val q rfl rfl rfl
            (by simp [payloadOf, TFTensor.isTF, TFOp.node_def]),
          dprintT_const
            (.mk nid (.resolved (.mk "Const" (.resolved []) (.resolved val))) vi dt sh nm false ev)
            (.mk "Const" (.resolved []) (.resolved val)) val
            ⟨o', q.indentation, q.printed_subgraphs⟩ rfl rfl rfl
            (by simp [payloadOf, TFTensor.isTF, TFOp.node_def])]
        exact ⟨_, rfl, by simp, by simp, by simp⟩
  · intro nid vi dt sh nm b ev q ty nd ins hlen hty _ _ _ o'
    have hins : ins = [] := List.length_eq_zero.mp (by omega)
    subst hins
    rw [dprintT_plain (.mk nid (.resolved (.mk ty (.resolved []) nd)) vi dt sh nm b ev)
        (.mk ty (.resolved []) nd) q rfl rfl hty,
      dprintT_plain (.mk nid (.resolved (.mk ty (.resolved []) nd)) vi dt sh nm b ev)
        (.mk ty (.resolved []) nd) ⟨o', q.indentation, q.printed_subgraphs⟩ rfl rfl hty]
    exact ⟨_, rfl, by simp, by simp, by simp⟩
  · intro ty nd q a o'
    rw [dprintO_var ty a nd q, dprintO_var ty a nd ⟨o', q.indentation, q.printed_subgraphs⟩]
    exact ⟨[], by simp, by simp, by simp, by simp⟩
  · intro ty nd q ins ih o'
    rw [dprintO_resolved ty ins nd q,
      dprintO_resolved ty ins nd ⟨o', q.indentation, q.printed_subgraphs⟩]
    exact ih o'
  · intro q o'
    rw [dprintIns_nil, dprintIns_nil]
    exact ⟨[], by simp, by simp, by simp, by simp⟩
  · intro t ts q ih1 ih2 o'
    rw [dprintIns_cons, dprintIns_cons]
    obtain ⟨e1, h11, h12, h13, h14⟩ := ih1 o'
    obtain ⟨e2, h21, h22, h23, h24⟩ := ih2 (o' ++ e1)
    have hrec : dprintT t ⟨o', q.indentation, q.printed_subgraphs⟩
        = ⟨o' ++ e1, (dprintT t q).indentation, (dprintT t q).printed_subgraphs⟩ := by
      ext : 1
      · exact h12
      · exact h13
      · exact h14
    rw [hrec]
    refine ⟨e1 ++ e2, ?_, ?_, ?_, ?_⟩
    · rw [h21, h11]; simp
    · exact h22.trans (by simp)
    · exact h23
    · exact h24


theorem dprintIns_shift : ∀ ts q, ∀ o' : List String, ∃ ext,
    (dprintIns ts q).out = q.out ++ ext ∧
    (dprintIns ts ⟨o', q.indentation, q.printed_subgraphs⟩).out = o' ++ ext ∧
    (dprintIns ts ⟨o', q.indentation, q.printed_subgraphs⟩).indentation
      = (dprintIns ts q).indentation ∧
    (dprintIns ts ⟨o', q.indentation, q.printed_subgraphs⟩).printed_subgraphs
      = (dprintIns ts q).printed_subgraphs := by
  intro ts
  induction ts with
  | nil =>
    intro q o'
    rw [dprintIns_nil, dprintIns_nil]
    exact ⟨[], by simp, by simp, by simp, by simp⟩
  | cons t ts ih =>
    intro q o'
    rw [dprintIns_cons, dprintIns_cons]
    obtain ⟨e1, h11, h12, h13, h14⟩ := dprintT_shift t q o'
    obtain ⟨e2, h21, h22, h23, h24⟩ := ih (dprintT t q) (o' ++ e1)
    have hrec : dprintT t ⟨o', q.indentation, q.printed_subgraphs⟩
        = ⟨o' ++ e1, (dprintT t q).indentation, (dprintT t q).printed_subgraphs⟩ := by
      ext : 1
      · exact h12
      · exact h13
      · exact h14
    rw [hrec]
    refine ⟨e1 ++ e2, ?_, ?_, ?_, ?_⟩
    · rw [h21, h11]; simp
    · exact h22.trans (by simp)
    · exact h23
    · exact h24

theorem dprintO_shift : ∀ o q, ∀ o' : List String, ∃ ext,
    (dprintO o q).out = q.out ++ ext ∧
    (dprintO o ⟨o', q.indentation, q.printed_subgraphs⟩).out = o' ++ ext ∧
    (dprintO o ⟨o', q.indentation, q.printed_subgraphs⟩).indentation
      = (dprintO o q).indentation ∧
    (dprintO o ⟨o', q.indentation, q.printed_subgraphs⟩).printed_subgraphs
      = (dprintO o q).printed_subgraphs := by
  intro o q o'
  obtain ⟨ty, inputs, nd⟩ := o
  cases inputs with
  | var v =>
    rw [dprintO_var, dprintO_var]
    exact ⟨[], by simp, by simp, by simp, by simp⟩
  | resolved ins =>
    rw [dprintO_resolved, dprintO_resolved]
    exact dprintIns_shift ins q o'

/-! ## Lemmas: header line, structural variants, reachable dedup ids -/

theorem withNid_op (t : TFTensor) (n : Nat) : (t.withNid n).op = t.op := by
  obtain ⟨a, b, c, d, e, f, g, h⟩ := t; rfl

theorem withNid_nid (t : TFTensor) (n : Nat) : (t.withNid n).nid = n := by
  obtain ⟨a, b, c, d, e, f, g, h⟩ := t; rfl

theorem headerStr_withNid (t : TFTensor) (n : Nat) :
    headerStr (t.withNid n) = headerStr t := by
  obtain ⟨a, b, c, d, e, f, g, h⟩ := t; rfl

theorem headerStr_withShape_none (t : TFTensor) :
    headerStr (t.withShape none)
      = "Tensor(" ++ (match t.op with | .resolved o => o.type | .var v => v) ++ "):"
        ++ toString t.value_index
        ++ ",\tdtype=" ++ (match t.dtype.name with | some n => n | none => t.dtype.raw)
        ++ ",\tshape=" ++ "Unknown"
        ++ ",\t\"" ++ t.name ++ "\"" := by
  obtain ⟨a, b, c, d, e, f, g, h⟩ := t; rfl

/-- Every tensor visit first emits exactly one header line at the current
indentation; anything else comes after it. -/
theorem dprintT_out_head : ∀ t p, ∃ rest,
    (dprintT t p).out = p.out ++ (p.indentation ++ headerStr t) :: rest := by
  intro t p
  obtain ⟨nid, op, vi, dt, sh, nm, b, ev⟩ := t
  cases op with
  | var a =>
    rw [dprintT_var_op (.mk nid (.var a) vi dt sh nm b ev) a p rfl]
    exact ⟨[], by simp⟩
  | resolved o =>
    obtain ⟨ty, inputs, nd⟩ := o
    cases inputs with
    | var v =>
      rw [dprintT_var_inputs (.mk nid (.resolved (.mk ty (.var v) nd)) vi dt sh nm b ev)
        (.mk ty (.var v) nd) v p rfl rfl]
      exact ⟨[p.indentation ++ "|  " ++ v], by simp⟩
    | resolved ins =>
      by_cases hlen : 0 < ins.length
      · by_cases hmem : nid ∈ p.printed_subgraphs
        · rw [dprintT_dedup (.mk nid (.resolved (.mk ty (.resolved ins) nd)) vi dt sh nm b ev)
            (.mk ty (.resolved ins) nd) ins p rfl rfl hlen hmem]
          exact ⟨[p.indentation ++ "|  " ++ "..."], by simp⟩
        · rw [dprintT_expand (.mk nid (.resolved (.mk ty (.resolved ins) nd)) vi dt sh nm b ev)
            (.mk ty (.resolved ins) nd) ins p rfl rfl hlen hmem]
          obtain ⟨_, ⟨e, ho⟩, _, _, _⟩ := dprintO_evolves (.mk ty (.resolved ins) nd)
            ⟨p.out ++ [p.indentation ++
              headerStr (.mk nid (.resolved (.mk ty (.resolved ins) nd)) vi dt sh nm b ev)],
              p.indentation ++ "|  ", p.printed_subgraphs ++ [nid]⟩
          refine ⟨e, ?_⟩
          simpa using ho
      · have hins : ins = [] := List.length_eq_zero.mp (by omega)
        subst hins
        by_cases hty : ty = "Const"
        · subst hty
          cases b with
          | true =>
            rw [dprintT_const (.mk nid (.resolved (.mk "Const" (.resolved []) nd)) vi dt sh nm true ev)
              (.mk "Const" (.resolved []) nd) ev p rfl rfl rfl
              (by simp [payloadOf, TFTensor.isTF, TFTensor.evalVal])]
            exact ⟨[p.indentation ++ "|  " ++ array2string ev 20 (p.indentation ++ "|  ")], by simp⟩
          | false =>
            cases nd with
            | var w =>
              rw [dprintT_const_varnd
                (.mk nid (.resolved (.mk "Const" (.resolved []) (.var w))) vi dt sh nm false ev)
                (.mk "Const" (.resolved []) (.var w)) w p rfl rfl rfl rfl rfl]
              exact ⟨[p.indentation ++ ("|  " ++ w)], by simp⟩
            | resolved val =>
              rw [dprintT_const
                (.mk nid (.resolved (.mk "Const" (.resolved []) (.resolved val))) vi dt sh nm false ev)
                (.mk "Const" (.resolved []) (.resolved val)) val p rfl rfl rfl
                (by simp [payloadOf, TFTensor.isTF, TFOp.node_def])]
              exact ⟨[p.indentation ++ "|  " ++ array2string val 20 (p.indentation ++ "|  ")], by simp⟩
        · rw [dprintT_plain (.mk nid (.resolved (.mk ty (.resolved []) nd)) vi dt sh nm b ev)
            (.mk ty (.resolved []) nd) p rfl rfl hty]
          exact ⟨[], by simp⟩


/-- Every id the dedup set acquires during a visit is the identity of a
reachable value node whose resolved producing operation has a resolved,
non-empty input list. -/
theorem dprintT_printed_sub : ∀ t q n, n ∈ (dprintT t q).printed_subgraphs →
    n ∈ q.printed_subgraphs ∨ n ∈ expandableIds t := by
  refine dprintT.induct
    (fun t q => ∀ n, n ∈ (dprintT t q).printed_subgraphs →
      n ∈ q.printed_subgraphs ∨ n ∈ expandableIds t)
    (fun o q => ∀ n, n ∈ (dprintO o q).printed_subgraphs →
      n ∈ q.printed_subgraphs ∨ n ∈ expandableIdsO o)
    (fun ts q => ∀ n, n ∈ (dprintIns ts q).printed_subgraphs →
      n ∈ q.printed_subgraphs ∨ n ∈ expandableIdsL ts) ?_ ?_ ?_ ?_ ?_ ?_ ?_ ?_ ?_
  · intro nid vi dt sh nm b ev q a _ n hn
    rw [dprintT_var_op (.mk nid (.var a) vi dt sh nm b ev) a q rfl] at hn
    exact Or.inl hn
  · intro nid vi dt sh nm b ev q ty nd v _ _ _ n hn
    rw [dprintT_var_inputs (.mk nid (.resolved (.mk ty (.var v) nd)) vi dt sh nm b ev)
      (.mk ty (.var v) nd) v q rfl rfl] at hn
    exact Or.inl hn
  · intro nid vi dt sh nm b ev q ty nd ins hlen _ _ _ ih n hn
    by_cases hmem : nid ∈ q.printed_subgraphs
    · rw [dprintT_dedup (.mk nid (.resolved (.mk ty (.resolved ins) nd)) vi dt sh nm b ev)
        (.mk ty (.resolved ins) nd) ins q rfl rfl hlen hmem] at hn
      exact Or.inl hn
    · rw [dprintT_expand (.mk nid (.resolved (.mk ty (.resolved ins) nd)) vi dt sh nm b ev)
        (.mk ty (.resolved ins) nd) ins q rfl rfl hlen hmem] at hn
      have hn' := ih ⟨q.out ++ [q.indentation ++
          headerStr (.mk nid (.resolved (.mk ty (.resolved ins) nd)) vi dt sh nm b ev)],
          q.indentation ++ "|  ", q.printed_subgraphs⟩ n (by simpa using hn)
      simp only [List.mem_append, List.mem_singleton] at hn'
      rcases hn' with (h | h) | h
      · exact Or.inl h
      · subst h
        right
        simp [expandableIds, TFTensor.nid, hlen]
      · right
        simp only [expandableIds, hlen, if_pos, List.mem_cons]
        right
        simpa [expandableIdsO] using h
  · intro nid vi dt sh nm b ev q nd ins hlen _ _ _ n hn
    have hins : ins = [] := List.length_eq_zero.mp (by omega)
    subst hins
    cases b with
    | true =>
      rw [dprintT_const (.mk nid (.resolved (.mk "Const" (.resolved []) nd)) vi dt sh nm true ev)
        (.mk "Const" (.resolved []) nd) ev q rfl rfl rfl
        (by simp [payloadOf, TFTensor.isTF, TFTensor.evalVal])] at hn
      exact Or.inl hn
    | false =>
      cases nd with
      | var w =>
        rw [dprintT_const_varnd
          (.mk nid (.resolved (.mk "Const" (.resolved []) (.var w))) vi dt sh nm false ev)
          (.mk "Const" (.resolved []) (.var w)) w q rfl rfl rfl rfl rfl] at hn
        exact Or.inl hn
      | resolved val =>
        rw [dprintT_const
          (.mk nid (.resolved (.mk "Const" (.resolved []) (.resolved val))) vi dt sh nm false ev)
          (.mk "Const" (.resolved []) (.resolved val)) val q rfl rfl rfl
          (by simp [payloadOf, TFTensor.isTF, TFOp.node_def])] at hn
        exact Or.inl hn
  · intro nid vi dt sh nm b ev q ty nd ins hlen hty _ _ _ n hn
    have hins : ins = [] := List.length_eq_zero.mp (by omega)
    subst hins
    rw [dprintT_plain (.mk nid (.resolved (.mk ty (.resolved []) nd)) vi dt sh nm b ev)
      (.mk ty (.resolved []) nd) q rfl rfl hty] at hn
    exact Or.inl hn
  · intro ty nd q a n hn
    rw [dprintO_var ty a nd q] at hn
    exact Or.inl hn
  · intro ty nd q ins ih n hn
    rw [dprintO_resolved ty ins nd q] at hn
    rcases ih n hn with h | h
    · exact Or.inl h
    · right
      simpa [expandableIdsO] using h
  · intro q n hn
    rw [dprintIns_nil] at hn
    exact Or.inl hn
  · intro t ts q ih1 ih2 n hn
    rw [dprintIns_cons] at hn
    rcases ih2 n hn with h | h
    · rcases ih1 n h with h' | h'
      · exact Or.inl h'
      · right
        simp [expandableIdsL, h']
    · right
      simp [expandableIdsL, h]


/-! ## Scoped-indentation lemmas and claim theorems -/

theorem nestScopes_run {ε : Type} (i : Indent) (is : List Indent)
    (block : TFlowPrinter → TFlowPrinter × Option ε) (p : TFlowPrinter) :
    nestScopes (i :: is) block p
      = ({ (block { p with indentation := p.indentation ++ concatTexts (i :: is) }).1
            with indentation := p.indentation },
         (block { p with indentation := p.indentation ++ concatTexts (i :: is) }).2) := by
  induction is generalizing p i with
  | nil =>
    simp [nestScopes, TFlowPrinter.indented, concatTexts, String.append_empty]
  | cons j js ih =>
    rw [show nestScopes (i :: j :: js) block p
        = ({ (nestScopes (j :: js) block { p with indentation := p.indentation ++ i.text }).1
              with indentation := p.indentation },
           (nestScopes (j :: js) block { p with indentation := p.indentation ++ i.text }).2)
      from rfl]
    rw [ih j { p with indentation := p.indentation ++ i.text }]
    simp [concatTexts, String.append_assoc]

theorem join_replicate_space_data : ∀ (n : Nat) (acc : String),
    (List.foldl (· ++ ·) acc (List.replicate n " ")).data
      = acc.data ++ List.replicate n (' ')
  | 0, acc => by simp
  | n+1, acc => by
    have hs : (" " : String).data = [(' ')] := rfl
    simp only [List.replicate_succ, List.foldl_cons]
    rw [join_replicate_space_data n (acc ++ " ")]
    simp [String.data_append, hs]

theorem indent_int_text_data (n : Nat) :
    ((Indent.int n).text).data = List.replicate n (' ') := by
  have h0 : ("" : String).data = [] := rfl
  have := join_replicate_space_data n ""
  simpa [Indent.text, String.join, h0] using this

/-- **C3**: for every root object that is a concrete value node whose
producing-operation accessor is unavailable (eager/deferred context), the
entry point fails with the graph-not-inspectable error — whose message says
to recreate the object in a fully materialized (non-deferred) graph context
— and the printer (in particular its output sink) is left unchanged: no
partial output is emitted before the error. -/
theorem claim_C3 (rep : String) (pr : Option TFlowPrinter) :
    (tf_dprint (.eagerTensor rep) pr).2
      = some ("TensorFlow Operation not available; try recreating the object with eager-mode disabled (e.g. within `tensorflow.python.eager.context.graph_mode`)")
    ∧ (tf_dprint (.eagerTensor rep) pr).1 = pr.getD defaultPrinter
    ∧ (tf_dprint (.eagerTensor rep) pr).1.out = (pr.getD defaultPrinter).out :=
  ⟨rfl, rfl, rfl⟩

/-- **C5**: at every depth of nested indentation scopes the block inside
runs at the prior indentation extended by the concatenation of all
enclosing increments, and leaving the scopes restores the exact prior
indentation — for any block result, including one carrying an error; an
integer increment contributes that many spaces and a string increment
contributes itself. -/
theorem claim_C5 (ε : Type) (i : Indent) (is : List Indent)
    (block : TFlowPrinter → TFlowPrinter × Option ε) (p : TFlowPrinter) :
    (nestScopes (i :: is) block p
      = ({ (block { p with indentation := p.indentation ++ concatTexts (i :: is) }).1
            with indentation := p.indentation },
         (block { p with indentation := p.indentation ++ concatTexts (i :: is) }).2))
    ∧ ((TFlowPrinter.indented p i block).1.indentation = p.indentation)
    ∧ (∀ n, ((Indent.int n).text).data = List.replicate n (' '))
    ∧ (∀ s, (Indent.str s).text = s) :=
  ⟨nestScopes_run i is block p, rfl, indent_int_text_data, fun _ => rfl⟩

/-- **C6**: a value node whose producing operation is an unresolved
placeholder prints exactly its header line and nothing else: the buffer
gains the one header line and the indentation and dedup set are untouched,
so no recursion follows, regardless of the operation's hypothetical
inputs. -/
theorem claim_C6 (t : TFTensor) (v : String) (p : TFlowPrinter)
    (h : t.op = .var v) :
    dprintT t p = { p with out := p.out ++ [p.indentation ++ headerStr t] } :=
  dprintT_var_op t v p h

/-- Witness for C6 at the concrete placeholder-op tensor `exVarOp`. -/
theorem claim_C6_witness :
    exVarOp.op = .var "~1"
    ∧ dprintT exVarOp defaultPrinter
      = { defaultPrinter with
          out := defaultPrinter.out ++ [defaultPrinter.indentation ++ headerStr exVarOp] } :=
  ⟨rfl, claim_C6 exVarOp "~1" defaultPrinter rfl⟩

/-- **C9 (amended)**: the entry point dispatches a tensor root or an
operation root to their node visitors, but a list root is not traversed:
no list overload is registered, so a list falls to the opaque default case
and is printed as one line containing its string rendering. -/
theorem claim_C9_amended (t : TFTensor) (o : TFOp) (xs : List Obj) (p : TFlowPrinter) :
    tf_dprint (.node (.tensor t)) (some p) = (dprintT t p, none)
    ∧ tf_dprint (.node (.oper o)) (some p) = (dprintO o p, none)
    ∧ tf_dprint (.node (.list xs)) (some p)
        = ({ p with out := p.out ++ [p.indentation ++ Obj.strOf (.list xs)] }, none) :=
  ⟨rfl, rfl, rfl⟩

/-- **C9 (counterexample)**: a list root is treated as a single opaque
value, not traversed: printing `[exShared]` emits one line containing the
list's string rendering, and the header line that dispatching the element
would emit appears nowhere in the output. -/
theorem claim_C9_cex :
    (tf_dprint (.node (.list [.tensor exShared])) none).1.out
      = ["[<tf.Tensor exp:0>]"]
    ∧ ((defaultPrinter.indentation ++ headerStr exShared) ∉
        (tf_dprint (.node (.list [.tensor exShared])) none).1.out) := by
  constructor
  · rfl
  · decide


theorem headerStr_eq (t : TFTensor) :
    headerStr t
      = "Tensor(" ++ (match t.op with | .resolved o => o.type | .var v => v) ++ "):"
        ++ toString t.value_index
        ++ ",\tdtype=" ++ (match t.dtype.name with | some n => n | none => t.dtype.raw)
        ++ ",\tshape=" ++ (match t.shape with | some l => pyListStr l | none => "Unknown")
        ++ ",\t\"" ++ t.name ++ "\"" := by
  obtain ⟨a, b, c, d, e, f, g, h⟩ := t; rfl

theorem drop_head_line (p0 : List String) (a : String) (r : List String) :
    (p0 ++ a :: r).drop (p0.length + 1) = r := by
  rw [show p0 ++ a :: r = (p0 ++ [a]) ++ r by simp]
  exact List.drop_left' (by simp)

/-- **C4**: every tensor visit emits one header line, first, at the current
indentation, of the exact form
`Tensor(<op-type-or-op-repr>):<output-slot>,\tdtype=<dtype-label>,\tshape=<shape-string>,\t"<display-name>"`,
the op's type tag if the op is resolved and the op's rendering otherwise,
the dtype name falling back to the raw dtype value, and the shape string
falling back to `"Unknown"`. -/
theorem claim_C4 (t : TFTensor) (p : TFlowPrinter) :
    ∃ rest, (dprintT t p).out
      = p.out ++ (p.indentation ++
          ("Tensor(" ++ (match t.op with | .resolved o => o.type | .var v => v) ++ "):"
            ++ toString t.value_index
            ++ ",\tdtype=" ++ (match t.dtype.name with | some n => n | none => t.dtype.raw)
            ++ ",\tshape=" ++ (match t.shape with | some l => pyListStr l | none => "Unknown")
            ++ ",\t\"" ++ t.name ++ "\"")) :: rest := by
  obtain ⟨rest, h⟩ := dprintT_out_head t p
  exact ⟨rest, by rw [← headerStr_eq t]; exact h⟩

/-- **C7**: a zero-input constant node with a retrievable payload renders
its payload through the array formatter with element threshold 20 and the
current (scoped) indentation as alignment prefix; a payload of more than 20
elements collapses to the truncated form, one of at most 20 renders in
full. -/
theorem claim_C7 (t : TFTensor) (o : TFOp) (v : List Int) (p : TFlowPrinter)
    (h1 : t.op = .resolved o) (h2 : o.inputs = .resolved []) (h3 : o.type = "Const")
    (h4 : payloadOf t o = some v) :
    dprintT t p = { p with out := p.out ++ [p.indentation ++ headerStr t,
        p.indentation ++ "|  " ++ array2string v 20 (p.indentation ++ "|  ")] }
    ∧ (20 < v.length → array2string v 20 (p.indentation ++ "|  ") = collapsedArrayStr v)
    ∧ (v.length ≤ 20 → array2string v 20 (p.indentation ++ "|  ") = fullArrayStr v) :=
  ⟨dprintT_const t o v p h1 h2 h3 h4,
   fun h => by simp [array2string, h],
   fun h => by simp [array2string, Nat.not_lt.mpr h]⟩

/-- Witness for C7 at the 21-element constant `exConstBig`. -/
theorem claim_C7_witness :
    payloadOf exConstBig exConstBigOp
      = some [0, 1, 2, 3, 4, 5, 6, 7, 8, 9, 10, 11, 12, 13, 14, 15, 16, 17, 18, 19, 20]
    ∧ (dprintT exConstBig defaultPrinter
        = { defaultPrinter with out := defaultPrinter.out ++
            [defaultPrinter.indentation ++ headerStr exConstBig,
             defaultPrinter.indentation ++ "|  " ++
               array2string [0, 1, 2, 3, 4, 5, 6, 7, 8, 9, 10, 11, 12, 13, 14, 15, 16, 17, 18, 19, 20]
                 20 (defaultPrinter.indentation ++ "|  ")] }
      ∧ (20 < ([0, 1, 2, 3, 4, 5, 6, 7, 8, 9, 10, 11, 12, 13, 14, 15, 16, 17, 18, 19, 20] : List Int).length →
          array2string [0, 1, 2, 3, 4, 5, 6, 7, 8, 9, 10, 11, 12, 13, 14, 15, 16, 17, 18, 19, 20]
            20 (defaultPrinter.indentation ++ "|  ")
          = collapsedArrayStr [0, 1, 2, 3, 4, 5, 6, 7, 8, 9, 10, 11, 12, 13, 14, 15, 16, 17, 18, 19, 20])
      ∧ (([0, 1, 2, 3, 4, 5, 6, 7, 8, 9, 10, 11, 12, 13, 14, 15, 16, 17, 18, 19, 20] : List Int).length ≤ 20 →
          array2string [0, 1, 2, 3, 4, 5, 6, 7, 8, 9, 10, 11, 12, 13, 14, 15, 16, 17, 18, 19, 20]
            20 (defaultPrinter.indentation ++ "|  ")
          = fullArrayStr [0, 1, 2, 3, 4, 5, 6, 7, 8, 9, 10, 11, 12, 13, 14, 15, 16, 17, 18, 19, 20])) :=
  ⟨rfl, claim_C7 exConstBig exConstBigOp
    [0, 1, 2, 3, 4, 5, 6, 7, 8, 9, 10, 11, 12, 13, 14, 15, 16, 17, 18, 19, 20]
    defaultPrinter rfl rfl rfl rfl⟩

/-- Shape only affects the header line: with any two shape-accessor
outcomes, everything after the header (further lines, indentation, dedup
set) is identical. -/
theorem dprintT_shape_irrel (t : TFTensor) (x y : Option (List (Option Nat)))
    (p : TFlowPrinter) :
    (dprintT (t.withShape x) p).out.drop (p.out.length + 1)
      = (dprintT (t.withShape y) p).out.drop (p.out.length + 1)
    ∧ (dprintT (t.withShape x) p).printed_subgraphs
      = (dprintT (t.withShape y) p).printed_subgraphs
    ∧ (dprintT (t.withShape x) p).indentation
      = (dprintT (t.withShape y) p).indentation := by
  obtain ⟨nid, op, vi, dt, sh, nm, b, ev⟩ := t
  simp only [TFTensor.withShape]
  cases op with
  | var a =>
    rw [dprintT_var_op (.mk nid (.var a) vi dt x nm b ev) a p rfl,
      dprintT_var_op (.mk nid (.var a) vi dt y nm b ev) a p rfl]
    refine ⟨?_, rfl, rfl⟩
    rw [show p.out ++ [p.indentation ++ headerStr (.mk nid (.var a) vi dt x nm b ev)]
        = p.out ++ (p.indentation ++ headerStr (.mk nid (.var a) vi dt x nm b ev)) :: [] by simp,
      drop_head_line,
      show p.out ++ [p.indentation ++ headerStr (.mk nid (.var a) vi dt y nm b ev)]
        = p.out ++ (p.indentation ++ headerStr (.mk nid (.var a) vi dt y nm b ev)) :: [] by simp,
      drop_head_line]
  | resolved o =>
    obtain ⟨ty, inputs, nd⟩ := o
    cases inputs with
    | var v =>
      rw [dprintT_var_inputs (.mk nid (.resolved (.mk ty (.var v) nd)) vi dt x nm b ev)
          (.mk ty (.var v) nd) v p rfl rfl,
        dprintT_var_inputs (.mk nid (.resolved (.mk ty (.var v) nd)) vi dt y nm b ev)
          (.mk ty (.var v) nd) v p rfl rfl]
      refine ⟨?_, rfl, rfl⟩
      rw [show p.out ++ [p.indentation ++ headerStr (.mk nid (.resolved (.mk ty (.var v) nd)) vi dt x nm b ev),
            p.indentation ++ "|  " ++ v]
          = p.out ++ (p.indentation ++ headerStr (.mk nid (.resolved (.mk ty (.var v) nd)) vi dt x nm b ev))
            :: [p.indentation ++ "|  " ++ v] by simp,
        drop_head_line,
        show p.out ++ [p.indentation ++ headerStr (.mk nid (.resolved (.mk ty (.var v) nd)) vi dt y nm b ev),
            p.indentation ++ "|  " ++ v]
          = p.out ++ (p.indentation ++ headerStr (.mk nid (.resolved (.mk ty (.var v) nd)) vi dt y nm b ev))
            :: [p.indentation ++ "|  " ++ v] by simp,
        drop_head_line]
    | resolved ins =>
      by_cases hlen : 0 < ins.length
      · by_cases hmem : nid ∈ p.printed_subgraphs
        · rw [dprintT_dedup (.mk nid (.resolved (.mk ty (.resolved ins) nd)) vi dt x nm b ev)
              (.mk ty (.resolved ins) nd) ins p rfl rfl hlen hmem,
            dprintT_dedup (.mk nid (.resolved (.mk ty (.resolved ins) nd)) vi dt y nm b ev)
              (.mk ty (.resolved ins) nd) ins p rfl rfl hlen hmem]
          refine ⟨?_, rfl, rfl⟩
          rw [show p.out ++ [p.indentation ++ headerStr (.mk nid (.resolved (.mk ty (.resolved ins) nd)) vi dt x nm b ev),
                p.indentation ++ "|  " ++ "..."]
              = p.out ++ (p.indentation ++ headerStr (.mk nid (.resolved (.mk ty (.resolved ins) nd)) vi dt x nm b ev))
                :: [p.indentation ++ "|  " ++ "..."] by simp,
            drop_head_line,
            show p.out ++ [p.indentation ++ headerStr (.mk nid (.resolved (.mk ty (.resolved ins) nd)) vi dt y nm b ev),
                p.indentation ++ "|  " ++ "..."]
              = p.out ++ (p.indentation ++ headerStr (.mk nid (.resolved (.mk ty (.resolved ins) nd)) vi dt y nm b ev))
                :: [p.indentation ++ "|  " ++ "..."] by simp,
            drop_head_line]
        · rw [dprintT_expand (.mk nid (.resolved (.mk ty (.resolved ins) nd)) vi dt x nm b ev)
              (.mk ty (.resolved ins) nd) ins p rfl rfl hlen hmem,
            dprintT_expand (.mk nid (.resolved (.mk ty (.resolved ins) nd)) vi dt y nm b ev)
              (.mk ty (.resolved ins) nd) ins p rfl rfl hlen hmem]
          obtain ⟨ext, k1, k2, k3, k4⟩ := dprintO_shift (.mk ty (.resolved ins) nd)
            ⟨p.out ++ [p.indentation ++ headerStr (.mk nid (.resolved (.mk ty (.resolved ins) nd)) vi dt x nm b ev)],
             p.indentation ++ "|  ", p.printed_subgraphs ++ [nid]⟩
            (p.out ++ [p.indentation ++ headerStr (.mk nid (.resolved (.mk ty (.resolved ins) nd)) vi dt y nm b ev)])
          simp only at k1 k2 k3 k4
          refine ⟨?_, ?_, rfl⟩
          · show (dprintO (.mk ty (.resolved ins) nd)
                ⟨p.out ++ [p.indentation ++ headerStr (.mk nid (.resolved (.mk ty (.resolved ins) nd)) vi dt x nm b ev)],
                 p.indentation ++ "|  ", p.printed_subgraphs ++ [nid]⟩).out.drop (p.out.length + 1)
              = (dprintO (.mk ty (.resolved ins) nd)
                ⟨p.out ++ [p.indentation ++ headerStr (.mk nid (.resolved (.mk ty (.resolved ins) nd)) vi dt y nm b ev)],
                 p.indentation ++ "|  ", p.printed_subgraphs ++ [nid]⟩).out.drop (p.out.length + 1)
            rw [k1, k2]
            rw [show p.out ++ [p.indentation ++ headerStr (.mk nid (.resolved (.mk ty (.resolved ins) nd)) vi dt x nm b ev)] ++ ext
                = p.out ++ (p.indentation ++ headerStr (.mk nid (.resolved (.mk ty (.resolved ins) nd)) vi dt x nm b ev)) :: ext by simp,
              drop_head_line,
              show p.out ++ [p.indentation ++ headerStr (.mk nid (.resolved (.mk ty (.resolved ins) nd)) vi dt y nm b ev)] ++ ext
                = p.out ++ (p.indentation ++ headerStr (.mk nid (.resolved (.mk ty (.resolved ins) nd)) vi dt y nm b ev)) :: ext by simp,
              drop_head_line]
          · show (dprintO (.mk ty (.resolved ins) nd)
                ⟨p.out ++ [p.indentation ++ headerStr (.mk nid (.resolved (.mk ty (.resolved ins) nd)) vi dt x nm b ev)],
                 p.indentation ++ "|  ", p.printed_subgraphs ++ [nid]⟩).printed_subgraphs
              = (dprintO (.mk ty (.resolved ins) nd)
                ⟨p.out ++ [p.indentation ++ headerStr (.mk nid (.resolved (.mk ty (.resolved ins) nd)) vi dt y nm b ev)],
                 p.indentation ++ "|  ", p.printed_subgraphs ++ [nid]⟩).printed_subgraphs
            exact k4.symm
      · have hins : ins = [] := List.length_eq_zero.mp (by omega)
        subst hins
        by_cases hty : ty = "Const"
        · subst hty
          cases b with
          | true =>
            rw [dprintT_const (.mk nid (.resolved (.mk "Const" (.resolved []) nd)) vi dt x nm true ev)
                (.mk "Const" (.resolved []) nd) ev p rfl rfl rfl
                (by simp [payloadOf, TFTensor.isTF, TFTensor.evalVal]),
              dprintT_const (.mk nid (.resolved (.mk "Const" (.resolved []) nd)) vi dt y nm true ev)
                (.mk "Const" (.resolved []) nd) ev p rfl rfl rfl
                (by simp [payloadOf, TFTensor.isTF, TFTensor.evalVal])]
            refine ⟨?_, rfl, rfl⟩
            rw [show p.out ++ [p.indentation ++ headerStr (.mk nid (.resolved (.mk "Const" (.resolved []) nd)) vi dt x nm true ev),
                  p.indentation ++ "|  " ++ array2string ev 20 (p.indentation ++ "|  ")]
                = p.out ++ (p.indentation ++ headerStr (.mk nid (.resolved (.mk "Const" (.resolved []) nd)) vi dt x nm true ev))
                  :: [p.indentation ++ "|  " ++ array2string ev 20 (p.indentation ++ "|  ")] by simp,
              drop_head_line,
              show p.out ++ [p.indentation ++ headerStr (.mk nid (.resolved (.mk "Const" (.resolved []) nd)) vi dt y nm true ev),
                  p.indentation ++ "|  " ++ array2string ev 20 (p.indentation ++ "|  ")]
                = p.out ++ (p.indentation ++ headerStr (.mk nid (.resolved (.mk "Const" (.resolved []) nd)) vi dt y nm true ev))
                  :: [p.indentation ++ "|  " ++ array2string ev 20 (p.indentation ++ "|  ")] by simp,
              drop_head_line]
          | false =>
            cases nd with
            | var w =>
              rw [dprintT_const_varnd (.mk nid (.resolved (.mk "Const" (.resolved []) (.var w))) vi dt x nm false ev)
                  (.mk "Const" (.resolved []) (.var w)) w p rfl rfl rfl rfl rfl,
                dprintT_const_varnd (.mk nid (.resolved (.mk "Const" (.resolved []) (.var w))) vi dt y nm false ev)
                  (.mk "Const" (.resolved []) (.var w)) w p rfl rfl rfl rfl rfl]
              refine ⟨?_, rfl, rfl⟩
              rw [show p.out ++ [p.indentation ++ headerStr (.mk nid (.resolved (.mk "Const" (.resolved []) (.var w))) vi dt x nm false ev),
                    p.indentation ++ ("|  " ++ w)]
                  = p.out ++ (p.indentation ++ headerStr (.mk nid (.resolved (.mk "Const" (.resolved []) (.var w))) vi dt x nm false ev))
                    :: [p.indentation ++ ("|  " ++ w)] by simp,
                drop_head_line,
                show p.out ++ [p.indentation ++ headerStr (.mk nid (.resolved (.mk "Const" (.resolved []) (.var w))) vi dt y nm false ev),
                    p.indentation ++ ("|  " ++ w)]
                  = p.out ++ (p.indentation ++ headerStr (.mk nid (.resolved (.mk "Const" (.resolved []) (.var w))) vi dt y nm false ev))
                    :: [p.indentation ++ ("|  " ++ w)] by simp,
                drop_head_line]
            | resolved val =>
              rw [dprintT_const (.mk nid (.resolved (.mk "Const" (.resolved []) (.resolved val))) vi dt x nm false ev)
                  (.mk "Const" (.resolved []) (.resolved val)) val p rfl rfl rfl
                  (by simp [payloadOf, TFTensor.isTF, TFOp.node_def]),
                dprintT_const (.mk nid (.resolved (.mk "Const" (.resolved []) (.resolved val))) vi dt y nm false ev)
                  (.mk "Const" (.resolved []) (.resolved val)) val p rfl rfl rfl
                  (by simp [payloadOf, TFTensor.isTF, TFOp.node_def])]
              refine ⟨?_, rfl, rfl⟩
              rw [show p.out ++ [p.indentation ++ headerStr (.mk nid (.resolved (.mk "Const" (.resolved []) (.resolved val))) vi dt x nm false ev),
                    p.indentation ++ "|  " ++ array2string val 20 (p.indentation ++ "|  ")]
                  = p.out ++ (p.indentation ++ headerStr (.mk nid (.resolved (.mk "Const" (.resolved []) (.resolved val))) vi dt x nm false ev))
                    :: [p.indentation ++ "|  " ++ array2string val 20 (p.indentation ++ "|  ")] by simp,
                drop_head_line,
                show p.out ++ [p.indentation ++ headerStr (.mk nid (.resolved (.mk "Const" (.resolved []) (.resolved val))) vi dt y nm false ev),
                    p.indentation ++ "|  " ++ array2string val 20 (p.indentation ++ "|  ")]
                  = p.out ++ (p.indentation ++ headerStr (.mk nid (.resolved (.mk "Const" (.resolved []) (.resolved val))) vi dt y nm false ev))
                    :: [p.indentation ++ "|  " ++ array2string val 20 (p.indentation ++ "|  ")] by simp,
                drop_head_line]
        · rw [dprintT_plain (.mk nid (.resolved (.mk ty (.resolved []) nd)) vi dt x nm b ev)
              (.mk ty (.resolved []) nd) p rfl rfl hty,
            dprintT_plain (.mk nid (.resolved (.mk ty (.resolved []) nd)) vi dt y nm b ev)
              (.mk ty (.resolved []) nd) p rfl rfl hty]
          refine ⟨?_, rfl, rfl⟩
          rw [show p.out ++ [p.indentation ++ headerStr (.mk nid (.resolved (.mk ty (.resolved []) nd)) vi dt x nm b ev)]
              = p.out ++ (p.indentation ++ headerStr (.mk nid (.resolved (.mk ty (.resolved []) nd)) vi dt x nm b ev)) :: [] by simp,
            drop_head_line,
            show p.out ++ [p.indentation ++ headerStr (.mk nid (.resolved (.mk ty (.resolved []) nd)) vi dt y nm b ev)]
              = p.out ++ (p.indentation ++ headerStr (.mk nid (.resolved (.mk ty (.resolved []) nd)) vi dt y nm b ev)) :: [] by simp,
            drop_head_line]

/-- **C8 (counterexample)**: the shape-string `except` clause catches only
`ValueError` and `AttributeError` — an exception of any other type from
the shape accessor is not caught: visiting `exShared` under such an
outcome aborts with the propagated exception and produces no printer state
at all, so no header line is emitted and the traversal does not proceed
into the inputs, refuting the claim's "any exception". -/
theorem claim_C8_cex :
    dprintTShape exShared (.otherError "TypeError") defaultPrinter
      = .error "TypeError"
    ∧ ∀ q : TFlowPrinter,
        dprintTShape exShared (.otherError "TypeError") defaultPrinter ≠ .ok q :=
  ⟨rfl, fun _ h => Except.noConfusion h⟩

/-- **C8 (amended)**: when the shape accessor raises a `ValueError` or an
`AttributeError` — the two exception types the tensor case catches — the
header line is still emitted, with the literal `Unknown` in its shape
field, and the traversal then proceeds exactly as it would with any
working shape accessor: the lines after the header, the final dedup set
and the final indentation are identical.  An exception of any other type
from the shape accessor propagates uncaught: the visit yields no printer
state (no header, traversal aborted). -/
theorem claim_C8 (t : TFTensor) (sh : List (Option Nat)) (exc : String)
    (p : TFlowPrinter) :
    dprintTShape t .valueError p = .ok (dprintT (t.withShape none) p)
    ∧ dprintTShape t .attributeError p = .ok (dprintT (t.withShape none) p)
    ∧ dprintTShape t (.ok sh) p = .ok (dprintT (t.withShape (some sh)) p)
    ∧ (∃ rest, (dprintT (t.withShape none) p).out
        = p.out ++ (p.indentation ++ headerStr (t.withShape none)) :: rest)
    ∧ headerStr (t.withShape none)
        = "Tensor(" ++ (match t.op with | .resolved o => o.type | .var v => v) ++ "):"
          ++ toString t.value_index
          ++ ",\tdtype=" ++ (match t.dtype.name with | some n => n | none => t.dtype.raw)
          ++ ",\tshape=" ++ "Unknown" ++ ",\t\"" ++ t.name ++ "\""
    ∧ (dprintT (t.withShape none) p).out.drop (p.out.length + 1)
        = (dprintT (t.withShape (some sh)) p).out.drop (p.out.length + 1)
    ∧ (dprintT (t.withShape none) p).printed_subgraphs
        = (dprintT (t.withShape (some sh)) p).printed_subgraphs
    ∧ (dprintT (t.withShape none) p).indentation
        = (dprintT (t.withShape (some sh)) p).indentation
    ∧ dprintTShape t (.otherError exc) p = .error exc :=
  ⟨rfl, rfl, rfl,
   dprintT_out_head (t.withShape none) p, headerStr_withShape_none t,
   (dprintT_shape_irrel t none (some sh) p).1,
   (dprintT_shape_irrel t none (some sh) p).2.1,
   (dprintT_shape_irrel t none (some sh) p).2.2, rfl⟩

/-- **C10**: constant value nodes are never deduplicated: a zero-input
constant visit leaves the dedup set untouched and renders its payload in
full, whatever the printer state — in particular at repeat occurrences,
where it is re-rendered instead of replaced by `"..."` — and every id the
dedup set ever holds is the identity of a node whose resolved operation has
a resolved input list with at least one input. -/
theorem claim_C10 (t : TFTensor) (o : TFOp) (v : List Int)
    (h1 : t.op = .resolved o) (h2 : o.inputs = .resolved []) (h3 : o.type = "Const")
    (h4 : payloadOf t o = some v) :
    (∀ p : TFlowPrinter,
      dprintT t p = { p with out := p.out ++ [p.indentation ++ headerStr t,
          p.indentation ++ "|  " ++ array2string v 20 (p.indentation ++ "|  ")] })
    ∧ (∀ (u : TFTensor) (q : TFlowPrinter) (n : Nat),
        n ∈ (dprintT u q).printed_subgraphs →
        n ∈ q.printed_subgraphs ∨ n ∈ expandableIds u) :=
  ⟨fun p => dprintT_const t o v p h1 h2 h3 h4, dprintT_printed_sub⟩

/-- **C1**: the dedup set is keyed by node identity, not value equality:
after visiting `t`, visiting the structurally identical node `t.withNid n2`
at a different graph position still expands — its id is added immediately
before its producing subgraph is visited, instead of printing the repeat
marker — both identities end up with their own entry, and ids are added at
most once (a duplicate-free dedup set stays duplicate-free). -/
theorem claim_C1 (t : TFTensor) (o : TFOp) (ins : List TFTensor) (n2 : Nat)
    (p : TFlowPrinter)
    (h1 : t.op = .resolved o) (h2 : o.inputs = .resolved ins) (h3 : 0 < ins.length)
    (hne : n2 ≠ t.nid)
    (hf1 : t.nid ∉ p.printed_subgraphs)
    (hf2 : n2 ∉ (dprintT t p).printed_subgraphs) :
    (t.nid ∈ (dprintT (t.withNid n2) (dprintT t p)).printed_subgraphs
      ∧ n2 ∈ (dprintT (t.withNid n2) (dprintT t p)).printed_subgraphs)
    ∧ (dprintT (t.withNid n2) (dprintT t p)
        = { dprintO o
              { dprintT t p with
                out := (dprintT t p).out ++ [(dprintT t p).indentation ++ headerStr t],
                indentation := (dprintT t p).indentation ++ "|  ",
                printed_subgraphs := (dprintT t p).printed_subgraphs ++ [n2] }
            with indentation := (dprintT t p).indentation })
    ∧ (p.printed_subgraphs.Nodup →
        (dprintT (t.withNid n2) (dprintT t p)).printed_subgraphs.Nodup) := by
  have h1' : (t.withNid n2).op = .resolved o := by rw [withNid_op]; exact h1
  have hf2' : (t.withNid n2).nid ∉ (dprintT t p).printed_subgraphs := by
    rw [withNid_nid]; exact hf2
  have heq := dprintT_expand (t.withNid n2) o ins (dprintT t p) h1' h2 h3 hf2'
  rw [headerStr_withNid, withNid_nid] at heq
  refine ⟨⟨?_, ?_⟩, heq, ?_⟩
  · -- t.nid was added by the first visit and the second only appends
    have heq0 := dprintT_expand t o ins p h1 h2 h3 hf1
    have hmid : t.nid ∈ (dprintT t p).printed_subgraphs := by
      obtain ⟨_, _, ⟨e, hp⟩, _, _⟩ := dprintO_evolves o
        { p with out := p.out ++ [p.indentation ++ headerStr t],
                 indentation := p.indentation ++ "|  ",
                 printed_subgraphs := p.printed_subgraphs ++ [t.nid] }
      rw [heq0]
      show t.nid ∈ (dprintO o _).printed_subgraphs
      rw [hp]
      simp
    obtain ⟨_, _, ⟨e2, hp2⟩, _, _⟩ := dprintT_evolves (t.withNid n2) (dprintT t p)
    rw [hp2]
    simp [hmid]
  · -- n2 is added by the second visit, immediately before the expansion
    rw [heq]
    obtain ⟨_, _, ⟨e, hp⟩, _, _⟩ := dprintO_evolves o
      { dprintT t p with
        out := (dprintT t p).out ++ [(dprintT t p).indentation ++ headerStr t],
        indentation := (dprintT t p).indentation ++ "|  ",
        printed_subgraphs := (dprintT t p).printed_subgraphs ++ [n2] }
    show n2 ∈ (dprintO o _).printed_subgraphs
    rw [hp]
    simp
  · intro hnd
    have hmid := (dprintT_evolves t p).2.2.2.2 hnd
    exact (dprintT_evolves (t.withNid n2) (dprintT t p)).2.2.2.2 hmid

/-- **C2**: in a diamond — two distinct consumer operations of one shared
upstream node `s`, under one root — the whole trace expands `s`'s producing
subgraph exactly once: the trace equals one expansion of `s`'s producer
(reached through the first consumer, with `s`'s id recorded just before),
followed by the second consumer's header and then, in place of a second
expansion, `s`'s header and the literal `"..."` line at the indentation
current at that occurrence; `s`'s id sits in the final dedup set exactly
once. -/
theorem claim_C2 (s : TFTensor) (so : TFOp) (ns : List TFTensor)
    (nR nA nB : Nat) (tyR nmR tyA nmA tyB nmB : String) (dt : DTypeT)
    (hso : s.op = .resolved so) (hins : so.inputs = .resolved ns)
    (hlen : 0 < ns.length)
    (hAR : nA ≠ nR) (hsR : s.nid ≠ nR) (hsA : s.nid ≠ nA)
    (hB : nB ∉ (dprintO so
        ⟨[headerStr (diamondRoot nR tyR nmR dt (consumerOf nA tyA nmA dt s) (consumerOf nB tyB nmB dt s)),
          "|  " ++ headerStr (consumerOf nA tyA nmA dt s),
          "|  |  " ++ headerStr s],
         "|  |  |  ", [nR, nA, s.nid]⟩).printed_subgraphs) :
    dprintT (diamondRoot nR tyR nmR dt (consumerOf nA tyA nmA dt s) (consumerOf nB tyB nmB dt s))
        defaultPrinter
      = ⟨(dprintO so
            ⟨[headerStr (diamondRoot nR tyR nmR dt (consumerOf nA tyA nmA dt s) (consumerOf nB tyB nmB dt s)),
              "|  " ++ headerStr (consumerOf nA tyA nmA dt s),
              "|  |  " ++ headerStr s],
             "|  |  |  ", [nR, nA, s.nid]⟩).out ++
          ["|  " ++ headerStr (consumerOf nB tyB nmB dt s),
           "|  |  " ++ headerStr s,
           "|  |  |  " ++ "..."],
         "",
         (dprintO so
            ⟨[headerStr (diamondRoot nR tyR nmR dt (consumerOf nA tyA nmA dt s) (consumerOf nB tyB nmB dt s)),
              "|  " ++ headerStr (consumerOf nA tyA nmA dt s),
              "|  |  " ++ headerStr s],
             "|  |  |  ", [nR, nA, s.nid]⟩).printed_subgraphs ++ [nB]⟩
    ∧ List.count s.nid
        (dprintT (diamondRoot nR tyR nmR dt (consumerOf nA tyA nmA dt s) (consumerOf nB tyB nmB dt s))
          defaultPrinter).printed_subgraphs = 1 := by
  obtain ⟨hEi, ⟨eo, hEo⟩, ⟨ep, hEp⟩, hEc, hEn⟩ := dprintO_evolves so
    ⟨[headerStr (diamondRoot nR tyR nmR dt (consumerOf nA tyA nmA dt s) (consumerOf nB tyB nmB dt s)),
      "|  " ++ headerStr (consumerOf nA tyA nmA dt s),
      "|  |  " ++ headerStr s],
     "|  |  |  ", [nR, nA, s.nid]⟩
  have hsE : s.nid ∈ (dprintO so
      ⟨[headerStr (diamondRoot nR tyR nmR dt (consumerOf nA tyA nmA dt s) (consumerOf nB tyB nmB dt s)),
        "|  " ++ headerStr (consumerOf nA tyA nmA dt s),
        "|  |  " ++ headerStr s],
       "|  |  |  ", [nR, nA, s.nid]⟩).printed_subgraphs := by
    rw [hEp]; simp
  have hBne : nB ≠ s.nid := fun h => hB (h ▸ hsE)
  have hstep1 : dprintT (diamondRoot nR tyR nmR dt (consumerOf nA tyA nmA dt s) (consumerOf nB tyB nmB dt s))
        defaultPrinter
      = { dprintT (consumerOf nB tyB nmB dt s)
            (dprintT (consumerOf nA tyA nmA dt s)
              ⟨[headerStr (diamondRoot nR tyR nmR dt (consumerOf nA tyA nmA dt s) (consumerOf nB tyB nmB dt s))],
               "|  ", [nR]⟩)
          with indentation := "" } :=
    dprintT_expand (diamondRoot nR tyR nmR dt (consumerOf nA tyA nmA dt s) (consumerOf nB tyB nmB dt s))
      (.mk tyR (.resolved [consumerOf nA tyA nmA dt s, consumerOf nB tyB nmB dt s]) (.var "~nd"))
      [consumerOf nA tyA nmA dt s, consumerOf nB tyB nmB dt s]
      defaultPrinter rfl rfl (by simp) (by simp [diamondRoot, TFTensor.nid, defaultPrinter])
  have hstepA : dprintT (consumerOf nA tyA nmA dt s)
        ⟨[headerStr (diamondRoot nR tyR nmR dt (consumerOf nA tyA nmA dt s) (consumerOf nB tyB nmB dt s))],
         "|  ", [nR]⟩
      = { dprintT s
            ⟨[headerStr (diamondRoot nR tyR nmR dt (consumerOf nA tyA nmA dt s) (consumerOf nB tyB nmB dt s)),
              "|  " ++ headerStr (consumerOf nA tyA nmA dt s)],
             "|  |  ", [nR, nA]⟩
          with indentation := "|  " } :=
    dprintT_expand (consumerOf nA tyA nmA dt s) (.mk tyA (.resolved [s]) (.var "~nd")) [s]
      ⟨[headerStr (diamondRoot nR tyR nmR dt (consumerOf nA tyA nmA dt s) (consumerOf nB tyB nmB dt s))],
       "|  ", [nR]⟩
      rfl rfl (by simp) (by simp [consumerOf, TFTensor.nid, hAR])
  have hstepS : dprintT s
        ⟨[headerStr (diamondRoot nR tyR nmR dt (consumerOf nA tyA nmA dt s) (consumerOf nB tyB nmB dt s)),
          "|  " ++ headerStr (consumerOf nA tyA nmA dt s)],
         "|  |  ", [nR, nA]⟩
      = { dprintO so
            ⟨[headerStr (diamondRoot nR tyR nmR dt (consumerOf nA tyA nmA dt s) (consumerOf nB tyB nmB dt s)),
              "|  " ++ headerStr (consumerOf nA tyA nmA dt s),
              "|  |  " ++ headerStr s],
             "|  |  |  ", [nR, nA, s.nid]⟩
          with indentation := "|  |  " } :=
    dprintT_expand s so ns
      ⟨[headerStr (diamondRoot nR tyR nmR dt (consumerOf nA tyA nmA dt s) (consumerOf nB tyB nmB dt s)),
        "|  " ++ headerStr (consumerOf nA tyA nmA dt s)],
       "|  |  ", [nR, nA]⟩
      hso hins hlen (by simp [hsR, hsA])
  have hmid : dprintT (consumerOf nA tyA nmA dt s)
        ⟨[headerStr (diamondRoot nR tyR nmR dt (consumerOf nA tyA nmA dt s) (consumerOf nB tyB nmB dt s))],
         "|  ", [nR]⟩
      = { dprintO so
            ⟨[headerStr (diamondRoot nR tyR nmR dt (consumerOf nA tyA nmA dt s) (consumerOf nB tyB nmB dt s)),
              "|  " ++ headerStr (consumerOf nA tyA nmA dt s),
              "|  |  " ++ headerStr s],
             "|  |  |  ", [nR, nA, s.nid]⟩
          with indentation := "|  " } := by
    rw [hstepA, hstepS]
  have hstepB : dprintT (consumerOf nB tyB nmB dt s)
        { dprintO so
            ⟨[headerStr (diamondRoot nR tyR nmR dt (consumerOf nA tyA nmA dt s) (consumerOf nB tyB nmB dt s)),
              "|  " ++ headerStr (consumerOf nA tyA nmA dt s),
              "|  |  " ++ headerStr s],
             "|  |  |  ", [nR, nA, s.nid]⟩
          with indentation := "|  " }
      = { dprintT s
            ⟨(dprintO so
                ⟨[headerStr (diamondRoot nR tyR nmR dt (consumerOf nA tyA nmA dt s) (consumerOf nB tyB nmB dt s)),
                  "|  " ++ headerStr (consumerOf nA tyA nmA dt s),
                  "|  |  " ++ headerStr s],
                 "|  |  |  ", [nR, nA, s.nid]⟩).out ++
              ["|  " ++ headerStr (consumerOf nB tyB nmB dt s)],
             "|  |  ",
             (dprintO so
                ⟨[headerStr (diamondRoot nR tyR nmR dt (consumerOf nA tyA nmA dt s) (consumerOf nB tyB nmB dt s)),
                  "|  " ++ headerStr (consumerOf nA tyA nmA dt s),
                  "|  |  " ++ headerStr s],
                 "|  |  |  ", [nR, nA, s.nid]⟩).printed_subgraphs ++ [nB]⟩
          with indentation := "|  " } :=
    dprintT_expand (consumerOf nB tyB nmB dt s) (.mk tyB (.resolved [s]) (.var "~nd")) [s]
      { dprintO so
          ⟨[headerStr (diamondRoot nR tyR nmR dt (consumerOf nA tyA nmA dt s) (consumerOf nB tyB nmB dt s)),
            "|  " ++ headerStr (consumerOf nA tyA nmA dt s),
            "|  |  " ++ headerStr s],
           "|  |  |  ", [nR, nA, s.nid]⟩
        with indentation := "|  " }
      rfl rfl (by simp) hB
  have hstepS2 : dprintT s
        ⟨(dprintO so
            ⟨[headerStr (diamondRoot nR tyR nmR dt (consumerOf nA tyA nmA dt s) (consumerOf nB tyB nmB dt s)),
              "|  " ++ headerStr (consumerOf nA tyA nmA dt s),
              "|  |  " ++ headerStr s],
             "|  |  |  ", [nR, nA, s.nid]⟩).out ++
          ["|  " ++ headerStr (consumerOf nB tyB nmB dt s)],
         "|  |  ",
         (dprintO so
            ⟨[headerStr (diamondRoot nR tyR nmR dt (consumerOf nA tyA nmA dt s) (consumerOf nB tyB nmB dt s)),
              "|  " ++ headerStr (consumerOf nA tyA nmA dt s),
              "|  |  " ++ headerStr s],
             "|  |  |  ", [nR, nA, s.nid]⟩).printed_subgraphs ++ [nB]⟩
      = ⟨((dprintO so
            ⟨[headerStr (diamondRoot nR tyR nmR dt (consumerOf nA tyA nmA dt s) (consumerOf nB tyB nmB dt s)),
              "|  " ++ headerStr (consumerOf nA tyA nmA dt s),
              "|  |  " ++ headerStr s],
             "|  |  |  ", [nR, nA, s.nid]⟩).out ++
          ["|  " ++ headerStr (consumerOf nB tyB nmB dt s)]) ++
          ["|  |  " ++ headerStr s, "|  |  " ++ "|  " ++ "..."],
         "|  |  ",
         (dprintO so
            ⟨[headerStr (diamondRoot nR tyR nmR dt (consumerOf nA tyA nmA dt s) (consumerOf nB tyB nmB dt s)),
              "|  " ++ headerStr (consumerOf nA tyA nmA dt s),
              "|  |  " ++ headerStr s],
             "|  |  |  ", [nR, nA, s.nid]⟩).printed_subgraphs ++ [nB]⟩ :=
    dprintT_dedup s so ns _ hso hins hlen (by simp [hsE])
  have heqfull : dprintT (diamondRoot nR tyR nmR dt (consumerOf nA tyA nmA dt s) (consumerOf nB tyB nmB dt s))
        defaultPrinter
      = ⟨(dprintO so
            ⟨[headerStr (diamondRoot nR tyR nmR dt (consumerOf nA tyA nmA dt s) (consumerOf nB tyB nmB dt s)),
              "|  " ++ headerStr (consumerOf nA tyA nmA dt s),
              "|  |  " ++ headerStr s],
             "|  |  |  ", [nR, nA, s.nid]⟩).out ++
          ["|  " ++ headerStr (consumerOf nB tyB nmB dt s),
           "|  |  " ++ headerStr s,
           "|  |  |  " ++ "..."],
         "",
         (dprintO so
            ⟨[headerStr (diamondRoot nR tyR nmR dt (consumerOf nA tyA nmA dt s) (consumerOf nB tyB nmB dt s)),
              "|  " ++ headerStr (consumerOf nA tyA nmA dt s),
              "|  |  " ++ headerStr s],
             "|  |  |  ", [nR, nA, s.nid]⟩).printed_subgraphs ++ [nB]⟩ := by
    rw [hstep1, hmid, hstepB, hstepS2]
    ext : 1
    · show ((dprintO so _).out ++ _) ++ _ = (dprintO so _).out ++ _
      simp [List.append_assoc]
    · rfl
    · rfl
  refine ⟨heqfull, ?_⟩
  rw [heqfull]
  show List.count s.nid ((dprintO so _).printed_subgraphs ++ [nB]) = 1
  rw [List.count_append, hEc s.nid (by simp)]
  simp [List.count_cons, hsR, hsA, hBne, Ne.symm hBne]

/-- Witness for C1: `exShared` and its structurally identical twin with
identity 99. -/
theorem claim_C1_witness :
    (exShared.op = .resolved exSharedOp ∧ exSharedOp.inputs = .resolved [exLeaf]
      ∧ 0 < ([exLeaf] : List TFTensor).length ∧ (99 : Nat) ≠ exShared.nid
      ∧ exShared.nid ∉ defaultPrinter.printed_subgraphs
      ∧ (99 : Nat) ∉ (dprintT exShared defaultPrinter).printed_subgraphs)
    ∧ ((exShared.nid ∈ (dprintT (exShared.withNid 99) (dprintT exShared defaultPrinter)).printed_subgraphs
        ∧ (99 : Nat) ∈ (dprintT (exShared.withNid 99) (dprintT exShared defaultPrinter)).printed_subgraphs)
      ∧ (dprintT (exShared.withNid 99) (dprintT exShared defaultPrinter)
          = { dprintO exSharedOp
                { dprintT exShared defaultPrinter with
                  out := (dprintT exShared defaultPrinter).out ++
                    [(dprintT exShared defaultPrinter).indentation ++ headerStr exShared],
                  indentation := (dprintT exShared defaultPrinter).indentation ++ "|  ",
                  printed_subgraphs := (dprintT exShared defaultPrinter).printed_subgraphs ++ [99] }
              with indentation := (dprintT exShared defaultPrinter).indentation })
      ∧ (defaultPrinter.printed_subgraphs.Nodup →
          (dprintT (exShared.withNid 99) (dprintT exShared defaultPrinter)).printed_subgraphs.Nodup)) :=
  ⟨⟨rfl, rfl, by decide, by decide, by decide, by decide⟩,
   claim_C1 exShared exSharedOp [exLeaf] 99 defaultPrinter rfl rfl (by decide) (by decide)
     (by decide) (by decide)⟩

/-- Witness for C2: a concrete diamond over the shared node `exShared`. -/
theorem claim_C2_witness :
    (exShared.op = .resolved exSharedOp
      ∧ exSharedOp.inputs = .resolved [exLeaf]
      ∧ 0 < ([exLeaf] : List TFTensor).length
      ∧ (1 : Nat) ≠ 0 ∧ exShared.nid ≠ 0 ∧ exShared.nid ≠ 1
      ∧ (2 : Nat) ∉ (dprintO exSharedOp
          ⟨[headerStr (diamondRoot 0 "Add" "add:0" dtF (consumerOf 1 "Neg" "neg:0" dtF exShared)
              (consumerOf 2 "Abs" "abs:0" dtF exShared)),
            "|  " ++ headerStr (consumerOf 1 "Neg" "neg:0" dtF exShared),
            "|  |  " ++ headerStr exShared],
           "|  |  |  ", [0, 1, exShared.nid]⟩).printed_subgraphs)
    ∧ List.count exShared.nid
        (dprintT (diamondRoot 0 "Add" "add:0" dtF (consumerOf 1 "Neg" "neg:0" dtF exShared)
            (consumerOf 2 "Abs" "abs:0" dtF exShared))
          defaultPrinter).printed_subgraphs = 1 :=
  ⟨⟨rfl, rfl, by decide, by decide, by decide, by decide, by decide⟩,
   (claim_C2 exShared exSharedOp [exLeaf] 0 1 2 "Add" "add:0" "Neg" "neg:0" "Abs" "abs:0" dtF
     rfl rfl (by decide) (by decide) (by decide) (by decide) (by decide)).2⟩

/-- Witness for C10: the 21-element constant `exConstBig`, visited by a
printer that already holds its id in the dedup set: the payload is still
rendered in full. -/
theorem claim_C10_witness :
    (exConstBig.op = .resolved exConstBigOp
      ∧ exConstBigOp.inputs = .resolved []
      ∧ exConstBigOp.type = "Const"
      ∧ payloadOf exConstBig exConstBigOp
        = some [0, 1, 2, 3, 4, 5, 6, 7, 8, 9, 10, 11, 12, 13, 14, 15, 16, 17, 18, 19, 20]
      ∧ exConstBig.nid ∈ exPrinterSeen.printed_subgraphs)
    ∧ dprintT exConstBig exPrinterSeen
      = { exPrinterSeen with out := exPrinterSeen.out ++
          [exPrinterSeen.indentation ++ headerStr exConstBig,
           exPrinterSeen.indentation ++ "|  " ++
             array2string [0, 1, 2, 3, 4, 5, 6, 7, 8, 9, 10, 11, 12, 13, 14, 15, 16, 17, 18, 19, 20]
               20 (exPrinterSeen.indentation ++ "|  ")] } :=
  ⟨⟨rfl, rfl, rfl, rfl, by decide⟩,
   (claim_C10 exConstBig exConstBigOp
     [0, 1, 2, 3, 4, 5, 6, 7, 8, 9, 10, 11, 12, 13, 14, 15, 16, 17, 18, 19, 20]
     rfl rfl rfl rfl).1 exPrinterSeen⟩


end SymbolicPymc
